import Mathlib

/-!
A shallow embedding of the roguelike dungeon generator, input handling and
field-of-view code of src/rogue.c, together with theorems settling the
specification's claims against it.  The tile grid is embedded as a total
function on integer coordinates (the C code only touches in-bounds cells),
loops become structural recursions or folds, and the C `rand()` stream is an
arbitrary function `Nat → Nat` threaded by an explicit index.  Float slopes of
the shadow-casting pass are embedded as rationals; none of the proved claims
depends on the numeric value of a slope.
-/

namespace Rogue

/-- Grid width in tiles (GRID_COLS in rogue.c). -/
def GRID_COLS : Nat := 80

/-- Grid height in tiles (GRID_ROWS in rogue.c). -/
def GRID_ROWS : Nat := 50

/-- Number of dungeon floors (DUNGEON_FLOOR_COUNT in rogue.c). -/
def DUNGEON_FLOOR_COUNT : Nat := 5

/-- Number of room placement attempts (MAX_ROOMS in rogue.c). -/
def MAX_ROOMS : Nat := 15

/-- Minimum room width (MIN_ROOM_W in rogue.c). -/
def MIN_ROOM_W : Nat := 6

/-- Maximum room width (MAX_ROOM_W in rogue.c). -/
def MAX_ROOM_W : Nat := 12

/-- Minimum room height (MIN_ROOM_H in rogue.c). -/
def MIN_ROOM_H : Nat := 6

/-- Maximum room height (MAX_ROOM_H in rogue.c). -/
def MAX_ROOM_H : Nat := 12

/-- The TileType enum of rogue.c. -/
inductive TileType where
  | wall
  | ground
  | stairsUp
  | stairsDown
deriving DecidableEq

/-- The Tile struct of rogue.c: a kind plus the two visibility flags. -/
structure Tile where
  type : TileType
  is_visible : Bool
  is_explored : Bool
deriving DecidableEq

instance : Inhabited Tile := ⟨⟨TileType.wall, false, false⟩⟩

/-- SDL_Point as used by rogue.c: a grid coordinate, x = column, y = row. -/
structure Point where
  x : Int
  y : Int
deriving DecidableEq

instance : Inhabited Point := ⟨⟨0, 0⟩⟩

/-- SDL_Rect as used by rogue.c: an axis-aligned rectangle. -/
structure Rect where
  x : Int
  y : Int
  w : Int
  h : Int
deriving DecidableEq

instance : Inhabited Rect := ⟨⟨0, 0, 0, 0⟩⟩

/-- The tile grid `tiles[y][x]`, embedded as a total function on integer
coordinates; the C code only ever reads or writes in-bounds cells. -/
def Tiles := Int → Int → Tile

/-- The single-cell write `floor->tiles[y][x].type = k`, leaving flags alone. -/
def setType (t : Tiles) (y x : Int) (k : TileType) : Tiles :=
  fun b a => if b = y ∧ a = x then { t y x with type := k } else t b a

/-- The loop of carve_h_corridor: starting at column `lo` of row `y`, set
`n` consecutive cells to Ground. -/
def carveRow (t : Tiles) (y lo : Int) : Nat → Tiles
  | 0 => t
  | n + 1 => carveRow (setType t y lo TileType.ground) y (lo + 1) n

/-- carve_h_corridor from rogue.c: carve the inclusive column range between
`x1` and `x2` of row `y` to Ground. -/
def carve_h_corridor (t : Tiles) (x1 x2 y : Int) : Tiles :=
  carveRow t y (min x1 x2) ((max x1 x2 - min x1 x2).toNat + 1)

/-- The loop of carve_v_corridor: starting at row `lo` of column `x`, set
`n` consecutive cells to Ground. -/
def carveCol (t : Tiles) (x lo : Int) : Nat → Tiles
  | 0 => t
  | n + 1 => carveCol (setType t lo x TileType.ground) x (lo + 1) n

/-- carve_v_corridor from rogue.c: carve the inclusive row range between
`y1` and `y2` of column `x` to Ground. -/
def carve_v_corridor (t : Tiles) (y1 y2 x : Int) : Tiles :=
  carveCol t x (min y1 y2) ((max y1 y2 - min y1 y2).toNat + 1)

/-- The nested loops of carve_room: rows `y0`, `y0+1`, ... each carved for
`w` columns starting at `x0`. -/
def carveRect (t : Tiles) (x0 : Int) (w : Nat) (y0 : Int) : Nat → Tiles
  | 0 => t
  | m + 1 => carveRect (carveRow t y0 x0 w) x0 w (y0 + 1) m

/-- carve_room from rogue.c: set every cell of the room rectangle to Ground. -/
def carve_room (t : Tiles) (rm : Rect) : Tiles :=
  carveRect t rm.x rm.w.toNat rm.y rm.h.toNat

/-- SDL_RectEmpty, per SDL's documented semantics (external library call):
a rectangle with non-positive width or height is empty. -/
def SDL_RectEmpty (r : Rect) : Bool :=
  decide (r.w ≤ 0) || decide (r.h ≤ 0)

/-- SDL_HasIntersection, per SDL's documented semantics (external library
call): two non-empty rectangles intersect when their half-open extents
strictly overlap on both axes; rectangles that only share an edge do not
intersect. -/
def SDL_HasIntersection (A B : Rect) : Bool :=
  !SDL_RectEmpty A && !SDL_RectEmpty B &&
    decide (max A.x B.x < min (A.x + A.w) (B.x + B.w)) &&
    decide (max A.y B.y < min (A.y + A.h) (B.y + B.h))

/-- Center of a room rectangle, `{x + w / 2, y + h / 2}` as in rogue.c. -/
def roomCenter (rm : Rect) : Point :=
  ⟨rm.x + rm.w / 2, rm.y + rm.h / 2⟩

/-- The four `rand()` draws of one placement attempt in generate_floor:
width, height, and a top-left position fitting with a 1-cell margin. -/
def candidate (r : Nat → Nat) (k : Nat) : Rect :=
  let w : Nat := MIN_ROOM_W + r k % (MAX_ROOM_W - MIN_ROOM_W + 1)
  let h : Nat := MIN_ROOM_H + r (k + 1) % (MAX_ROOM_H - MIN_ROOM_H + 1)
  let x : Nat := r (k + 2) % (GRID_COLS - w - 1) + 1
  let y : Nat := r (k + 3) % (GRID_ROWS - h - 1) + 1
  ⟨(x : Int), (y : Int), (w : Int), (h : Int)⟩

/-- Loop state of generate_floor: the grid being carved, the accepted rooms
in placement order, and the index of the next `rand()` draw. -/
structure GenState where
  tiles : Tiles
  rooms : List Rect
  k : Nat

/-- The L-shaped corridor of generate_floor between the previous accepted
room's center `pc` and the new room's center `nc`: horizontal first when the
coin draw is even, vertical first otherwise. -/
def carveCorridors (t : Tiles) (coin : Nat) (pc nc : Point) : Tiles :=
  if coin % 2 = 0 then
    carve_v_corridor (carve_h_corridor t pc.x nc.x pc.y) pc.y nc.y nc.x
  else
    carve_h_corridor (carve_v_corridor t pc.y nc.y pc.x) pc.x nc.x nc.y

/-- One iteration of generate_floor's placement loop: draw a candidate,
reject it when it SDL-intersects a previously accepted room, otherwise carve
it (plus, after the first room, a corridor to the previous room's center)
and append it to the accepted list. -/
def attempt (r : Nat → Nat) (st : GenState) : GenState :=
  let nr := candidate r st.k
  let failed := st.rooms.any (fun q => SDL_HasIntersection nr q)
  if failed then { st with k := st.k + 4 }
  else
    let t1 := carve_room st.tiles nr
    if 0 < st.rooms.length then
      let pr := st.rooms.getLastI
      let nc := roomCenter nr
      let pc := roomCenter pr
      let t2 := carveCorridors t1 (r (st.k + 4)) pc nc
      { tiles := t2, rooms := st.rooms ++ [nr], k := st.k + 5 }
    else
      { tiles := t1, rooms := st.rooms ++ [nr], k := st.k + 4 }

/-- The MAX_ROOMS-iteration placement loop of generate_floor. -/
def genLoop (r : Nat → Nat) (st : GenState) : Nat → GenState
  | 0 => st
  | n + 1 => genLoop r (attempt r st) n

/-- The initial grid of generate_floor: every cell Wall, unseen, unexplored. -/
def initialTiles : Tiles :=
  fun _ _ => ⟨TileType.wall, false, false⟩

/-- Final loop state of generate_floor on rand stream `r` starting at draw
index `k`. -/
def genStateFinal (r : Nat → Nat) (k : Nat) : GenState :=
  genLoop r ⟨initialTiles, [], k⟩ MAX_ROOMS

/-- The list of rooms generate_floor accepts, in placement order. -/
def gen_rooms (r : Nat → Nat) (k : Nat) : List Rect :=
  (genStateFinal r k).rooms

/-- The Floor struct of rogue.c: the tile grid plus the two stair points. -/
structure Floor where
  tiles : Tiles
  stairs_up : Point
  stairs_down : Point

instance : Inhabited Floor := ⟨⟨initialTiles, ⟨0, 0⟩, ⟨0, 0⟩⟩⟩

/-- generate_floor from rogue.c: run the placement loop, then place
stairs_up at the first accepted room's center and stairs_down at the last
accepted room's center.  Returns the floor together with the next rand
index, which rogue.c threads into the next floor's generation. -/
def generate_floor (r : Nat → Nat) (k : Nat) : Floor × Nat :=
  let st := genStateFinal r k
  let su := roomCenter st.rooms.headI
  let t1 := setType st.tiles su.y su.x TileType.stairsUp
  let sd := roomCenter st.rooms.getLastI
  let t2 := setType t1 sd.y sd.x TileType.stairsDown
  (⟨t2, su, sd⟩, st.k)

/-- C `roundf`, rounding half away from zero, on the rational slope model. -/
def roundf (q : ℚ) : Int :=
  if 0 ≤ q then ⌊q + 1 / 2⌋ else ⌈q - 1 / 2⌉

/-- The per-octant coordinate transform of cast_light's switch: the absolute
cell reached from the player at `(px, py)` by local offsets `(dx, dy)`.
Octants 8 and above fall through the C switch and leave `(px, py)` alone. -/
def octXY (oct : Nat) (px py dx dy : Int) : Int × Int :=
  match oct with
  | 0 => (px + dy, py - dx)
  | 1 => (px + dx, py - dy)
  | 2 => (px + dx, py + dy)
  | 3 => (px + dy, py + dx)
  | 4 => (px - dy, py + dx)
  | 5 => (px - dx, py + dy)
  | 6 => (px - dx, py - dy)
  | 7 => (px - dy, py - dx)
  | _ => (px, py)

/-- The two writes `is_visible = true; is_explored = true` performed on every
scanned in-bounds cell of cast_light (and on the player's own tile). -/
def markTile (t : Tiles) (y x : Int) : Tiles :=
  fun b a =>
    if b = y ∧ a = x then { t y x with is_visible := true, is_explored := true }
    else t b a

/-- The inner `dy` scan of cast_light at depth `dx`, counting down `n`
remaining offsets from `dy`; `spawn` is the recursive cast_light call the
scan makes at depth `dx + 1` when it meets a wall while already blocked.
Returns the grid together with the running start slope and blocked flag. -/
def clInner (spawn : Tiles → ℚ → ℚ → Tiles) (px py : Int) (oct : Nat) (dx : Int) :
    Nat → Int → Tiles → ℚ → Bool → Tiles × ℚ × Bool
  | 0, _, t, s, blocked => (t, s, blocked)
  | n + 1, dy, t, s, blocked =>
    let p := octXY oct px py dx dy
    if p.1 < 0 ∨ (GRID_COLS : Int) ≤ p.1 ∨ p.2 < 0 ∨ (GRID_ROWS : Int) ≤ p.2 then
      clInner spawn px py oct dx n (dy - 1) t s blocked
    else
      let t1 := markTile t p.2 p.1
      if (t1 p.2 p.1).type = TileType.wall then
        let t2 := if blocked then spawn t1 s (((dy : ℚ) + 1 / 2) / ((dx : ℚ) - 1 / 2)) else t1
        clInner spawn px py oct dx n (dy - 1) t2 (((dy : ℚ) - 1 / 2) / ((dx : ℚ) + 1 / 2)) true
      else
        clInner spawn px py oct dx n (dy - 1) t1 s false

/-- The outer depth loop of cast_light, fuelled by the number of remaining
depth rows; the top-level call supplies fuel `GRID_ROWS + GRID_COLS - row`,
and the fuel is irrelevant beyond that bound (see the termination theorem).
Each iteration scans offsets `roundf(dx*s)` down to `roundf(dx*e)` and stops
the loop if the row ends still blocked. -/
def clOuter (px py : Int) (oct : Nat) : Nat → Nat → Tiles → ℚ → ℚ → Tiles
  | 0, _, t, _, _ => t
  | fuel + 1, i, t, s, e =>
    if i < GRID_ROWS + GRID_COLS then
      let dx : Int := (i : Int)
      let hi := roundf ((dx : ℚ) * s)
      let lo := roundf ((dx : ℚ) * e)
      let res := clInner
        (fun t2 s2 e2 => if s2 < e2 then t2 else clOuter px py oct fuel (i + 1) t2 s2 e2)
        px py oct dx ((hi + 1 - lo).toNat) hi t s false
      if res.2.2 then res.1 else clOuter px py oct fuel (i + 1) res.1 res.2.1 e
    else t

/-- cast_light from rogue.c: return at once when the slope interval is
empty, otherwise run the depth loop from `row`. -/
def cast_light (t : Tiles) (px py : Int) (oct : Nat) (row : Nat) (s e : ℚ) : Tiles :=
  if s < e then t
  else clOuter px py oct (GRID_ROWS + GRID_COLS - row) row t s e

/-- The clearing double loop of update_fov: every in-bounds cell loses its
visible flag (explored is untouched). -/
def clearVisible (t : Tiles) : Tiles :=
  fun y x =>
    if 0 ≤ y ∧ y < (GRID_ROWS : Int) ∧ 0 ≤ x ∧ x < (GRID_COLS : Int) then
      { t y x with is_visible := false }
    else t y x

/-- The GameState of rogue.c restricted to the dungeon core: current floor
index, player position, and the floor array (embedded as a total function;
only indices below `floor_count` are ever used). -/
structure GameState where
  current_floor_index : Nat
  player : Point
  floors : Nat → Floor
  floor_count : Nat

/-- update_fov from rogue.c: on the current floor, clear every visible flag,
mark the player's tile visible and explored, then run cast_light for the
eight octants starting at row 1 with slopes (1, 0). -/
def update_fov (gs : GameState) : GameState :=
  let fl := gs.floors gs.current_floor_index
  let t0 := clearVisible fl.tiles
  let t1 := markTile t0 gs.player.y gs.player.x
  let t2 := (List.range 8).foldl
    (fun acc oct => cast_light acc gs.player.x gs.player.y oct 1 1 0) t1
  { gs with
    floors := fun j =>
      if j = gs.current_floor_index then { fl with tiles := t2 } else gs.floors j }

/-- The four movement intents handle_input reacts to. -/
inductive Dir where
  | up
  | down
  | left
  | right

/-- Column delta of a movement intent. -/
def dxOf : Dir → Int
  | Dir.left => -1
  | Dir.right => 1
  | _ => 0

/-- Row delta of a movement intent. -/
def dyOf : Dir → Int
  | Dir.up => -1
  | Dir.down => 1
  | _ => 0

/-- One keydown of handle_input from rogue.c: compute the target cell,
ignore it when out of bounds, otherwise branch on the target tile's kind —
walls block, stairs trigger floor transitions when the adjacent floor
exists, ground moves the player; every accepted move recomputes the FOV. -/
def handle_input_key (gs : GameState) (d : Dir) : GameState :=
  let nx := gs.player.x + dxOf d
  let ny := gs.player.y + dyOf d
  if nx < 0 ∨ (GRID_COLS : Int) ≤ nx ∨ ny < 0 ∨ (GRID_ROWS : Int) ≤ ny then gs
  else
    match ((gs.floors gs.current_floor_index).tiles ny nx).type with
    | TileType.wall => gs
    | TileType.stairsDown =>
      if gs.current_floor_index < gs.floor_count - 1 then
        let idx := gs.current_floor_index + 1
        update_fov { gs with current_floor_index := idx, player := (gs.floors idx).stairs_up }
      else gs
    | TileType.stairsUp =>
      if 0 < gs.current_floor_index then
        let idx := gs.current_floor_index - 1
        update_fov { gs with current_floor_index := idx, player := (gs.floors idx).stairs_down }
      else gs
    | TileType.ground =>
      update_fov { gs with player := ⟨nx, ny⟩ }

/-- The sequential floor generation of init_systems: floor `i + 1` starts at
the rand index where floor `i` stopped. -/
def gen_floors (r : Nat → Nat) : Nat → Floor × Nat
  | 0 => generate_floor r 0
  | i + 1 => generate_floor r (gen_floors r i).2

/-- The floor array after init_systems' boundary fixups: floor 0's
stairs_up tile and the last floor's stairs_down tile are forced to Ground. -/
def fixedFloors (r : Nat → Nat) : Nat → Floor :=
  let raw : Nat → Floor := fun i => (gen_floors r i).1
  let f0 := raw 0
  let fl0 : Floor := { f0 with tiles := setType f0.tiles f0.stairs_up.y f0.stairs_up.x TileType.ground }
  let floors1 : Nat → Floor := fun i => if i = 0 then fl0 else raw i
  let lf := DUNGEON_FLOOR_COUNT - 1
  let fLast := floors1 lf
  let flL : Floor := { fLast with tiles := setType fLast.tiles fLast.stairs_down.y fLast.stairs_down.x TileType.ground }
  fun i => if i = lf then flL else floors1 i

/-- The game state init_systems builds before the first FOV pass: the
fixed-up dungeon, the player on level 0's stairs_up, floor index 0. -/
def pre_fov_state (r : Nat → Nat) : GameState :=
  { current_floor_index := 0
    player := (fixedFloors r 0).stairs_up
    floors := fixedFloors r
    floor_count := DUNGEON_FLOOR_COUNT }

/-- init_systems from rogue.c (its dungeon part): generate the floors,
apply the boundary fixups, start the player on level 0's stairs_up, and
compute the first FOV. -/
def init_state (r : Nat → Nat) : GameState :=
  update_fov (pre_fov_state r)

/-- The states rogue.c can reach: the initial state for some rand stream,
closed under handling movement keys. -/
inductive Reachable : GameState → Prop
  | init (r : Nat → Nat) : Reachable (init_state r)
  | step (gs : GameState) (d : Dir) : Reachable gs → Reachable (handle_input_key gs d)

/-- A cell of the grid, written `(y, x)` to match `tiles[y][x]`. -/
abbrev Cell := Int × Int

/-- Membership of a cell in a room rectangle (the room's interior, which
rogue.c carves inclusively). -/
def inRect (rm : Rect) (y x : Int) : Prop :=
  rm.x ≤ x ∧ x < rm.x + rm.w ∧ rm.y ≤ y ∧ y < rm.y + rm.h

instance (rm : Rect) (y x : Int) : Decidable (inRect rm y x) :=
  inferInstanceAs (Decidable (_ ∧ _ ∧ _ ∧ _))

/-- The cell predicate of a non-Wall flood fill on grid `t`. -/
def NWOk (t : Tiles) (p : Cell) : Prop :=
  (t p.1 p.2).type ≠ TileType.wall

instance (t : Tiles) (p : Cell) : Decidable (NWOk t p) :=
  inferInstanceAs (Decidable (_ ≠ _))

/-- The cell predicate of a Ground-only flood fill on grid `t`. -/
def GroundOk (t : Tiles) (p : Cell) : Prop :=
  (t p.1 p.2).type = TileType.ground

instance (t : Tiles) (p : Cell) : Decidable (GroundOk t p) :=
  inferInstanceAs (Decidable (_ = _))

/-- Four-neighbour adjacency of grid cells. -/
def Adjacent (p q : Cell) : Prop :=
  (p.1 = q.1 ∧ (q.2 = p.2 + 1 ∨ p.2 = q.2 + 1)) ∨
  (p.2 = q.2 ∧ (q.1 = p.1 + 1 ∨ p.1 = q.1 + 1))

/-- Reachability by a path of cells satisfying `ok` (what a flood fill over
the `ok` cells computes): both endpoints satisfy `ok` and a chain of
adjacent `ok` cells joins them. -/
def Reaches (ok : Cell → Prop) (p q : Cell) : Prop :=
  ok p ∧ ok q ∧ Relation.ReflTransGen (fun a b => Adjacent a b ∧ ok b) p q

/-- The claim's notion of rectangle intersection, which counts rectangles
that merely share an edge (closed extents overlap on both axes). -/
def TouchesOrOverlaps (A B : Rect) : Prop :=
  max A.x B.x ≤ min (A.x + A.w) (B.x + B.w) ∧
  max A.y B.y ≤ min (A.y + A.h) (B.y + B.h)

instance (A B : Rect) : Decidable (TouchesOrOverlaps A B) :=
  inferInstanceAs (Decidable (_ ∧ _))

/-- Every visible tile of every floor is explored. -/
def VisibleImpliesExplored (gs : GameState) : Prop :=
  ∀ ℓ : Nat, ∀ y x : Int,
    ((gs.floors ℓ).tiles y x).is_visible = true →
    ((gs.floors ℓ).tiles y x).is_explored = true

/-- One visibility recomputation with a chosen floor index and player
position, as the claims quantify over: set them, then run update_fov. -/
def applyRecompute (gs : GameState) (c : Nat × Int × Int) : GameState :=
  update_fov { gs with current_floor_index := c.1, player := ⟨c.2.1, c.2.2⟩ }

/-- Each carve step only ever overwrites a tile's kind with Ground (or a
stair kind), so non-Wall cells stay non-Wall. -/
def TypeMono (t t2 : Tiles) : Prop :=
  ∀ b a, (t b a).type ≠ TileType.wall → (t2 b a).type ≠ TileType.wall

/-- Invariant carried through generate_floor's placement loop: accepted
rooms have positive extents, their interiors are carved non-Wall, and
consecutive accepted rooms' centers are joined by non-Wall paths. -/
def GoodRooms (t : Tiles) (rl : List Rect) : Prop :=
  (∀ rm ∈ rl, 0 < rm.w ∧ 0 < rm.h) ∧
  (∀ rm ∈ rl, ∀ y x, inRect rm y x → NWOk t (y, x)) ∧
  List.Pairwise (fun a b =>
    Reaches (NWOk t) ((roomCenter a).y, (roomCenter a).x)
      ((roomCenter b).y, (roomCenter b).x)) rl

/-- Concrete fixture tiles used only as witness inputs: a uniform grid. -/
def constTiles (k : TileType) (e : Bool) : Tiles :=
  fun _ _ => ⟨k, false, e⟩

/-- Concrete fixture floor used only as a witness input. -/
def constFloor (k : TileType) (e : Bool) : Floor :=
  ⟨constTiles k e, ⟨0, 0⟩, ⟨0, 0⟩⟩

/-- Concrete fixture state used only as a witness input. -/
def constState (k : TileType) (e : Bool) (count : Nat) : GameState :=
  ⟨0, ⟨1, 1⟩, fun _ => constFloor k e, count⟩

/-- Concrete two-floor fixture, level 0: a stairs-down tile at (x, y) = (2, 1),
registered as the floor's stairs_down. -/
def rtFloor0 : Floor :=
  ⟨fun b a => if b = 1 ∧ a = 2 then ⟨TileType.stairsDown, false, false⟩
    else ⟨TileType.ground, false, false⟩, ⟨0, 0⟩, ⟨2, 1⟩⟩

/-- Concrete two-floor fixture, level 1: stairs_up registered at (5, 5) with a
stairs-up tile beside it at (x, y) = (6, 5). -/
def rtFloor1 : Floor :=
  ⟨fun b a => if b = 5 ∧ a = 6 then ⟨TileType.stairsUp, false, false⟩
    else ⟨TileType.ground, false, false⟩, ⟨5, 5⟩, ⟨9, 9⟩⟩

/-- Concrete two-floor fixture state used only as a witness input. -/
def rtState : GameState :=
  ⟨0, ⟨1, 1⟩, fun i => if i = 0 then rtFloor0 else rtFloor1, 2⟩


/-- The kind of the tile a floor's stairs_up coordinate points at. -/
def stairsUpTile (fl : Floor) : TileType :=
  (fl.tiles fl.stairs_up.y fl.stairs_up.x).type

/-- The kind of the tile a floor's stairs_down coordinate points at. -/
def stairsDownTile (fl : Floor) : TileType :=
  (fl.tiles fl.stairs_down.y fl.stairs_down.x).type


theorem tileExt (a b : Tile) (h1 : a.type = b.type) (h2 : a.is_visible = b.is_visible)
    (h3 : a.is_explored = b.is_explored) : a = b := by
  cases a; cases b; simp_all

theorem setType_apply (t : Tiles) (y x : Int) (k : TileType) (b a : Int) :
    setType t y x k b a = if b = y ∧ a = x then { t y x with type := k } else t b a := rfl

theorem carveRow_type (y : Int) : ∀ (n : Nat) (t : Tiles) (lo b a : Int),
    (carveRow t y lo n b a).type =
      if b = y ∧ lo ≤ a ∧ a < lo + n then TileType.ground else (t b a).type := by
  intro n
  induction n with
  | zero =>
    intro t lo b a
    rw [carveRow, if_neg]
    rintro ⟨-, h1, h2⟩
    omega
  | succ n ih =>
    intro t lo b a
    rw [carveRow, ih, setType_apply, apply_ite Tile.type]
    by_cases hb : b = y
    · subst hb
      split_ifs <;> first | rfl | omega
    · split_ifs <;> first | rfl | omega

theorem carveRow_vis (y : Int) : ∀ (n : Nat) (t : Tiles) (lo b a : Int),
    (carveRow t y lo n b a).is_visible = (t b a).is_visible := by
  intro n
  induction n with
  | zero => intro t lo b a; rw [carveRow]
  | succ n ih =>
    intro t lo b a
    rw [carveRow, ih, setType_apply, apply_ite Tile.is_visible]
    split_ifs with h
    · rw [h.1, h.2]
    · rfl

theorem carveRow_exp (y : Int) : ∀ (n : Nat) (t : Tiles) (lo b a : Int),
    (carveRow t y lo n b a).is_explored = (t b a).is_explored := by
  intro n
  induction n with
  | zero => intro t lo b a; rw [carveRow]
  | succ n ih =>
    intro t lo b a
    rw [carveRow, ih, setType_apply, apply_ite Tile.is_explored]
    split_ifs with h
    · rw [h.1, h.2]
    · rfl

theorem carveCol_type (x : Int) : ∀ (n : Nat) (t : Tiles) (lo b a : Int),
    (carveCol t x lo n b a).type =
      if a = x ∧ lo ≤ b ∧ b < lo + n then TileType.ground else (t b a).type := by
  intro n
  induction n with
  | zero =>
    intro t lo b a
    rw [carveCol, if_neg]
    rintro ⟨-, h1, h2⟩
    omega
  | succ n ih =>
    intro t lo b a
    rw [carveCol, ih, setType_apply, apply_ite Tile.type]
    by_cases hb : a = x
    · subst hb
      split_ifs <;> first | rfl | omega
    · split_ifs <;> first | rfl | omega

theorem carveCol_vis (x : Int) : ∀ (n : Nat) (t : Tiles) (lo b a : Int),
    (carveCol t x lo n b a).is_visible = (t b a).is_visible := by
  intro n
  induction n with
  | zero => intro t lo b a; rw [carveCol]
  | succ n ih =>
    intro t lo b a
    rw [carveCol, ih, setType_apply, apply_ite Tile.is_visible]
    split_ifs with h
    · rw [h.1, h.2]
    · rfl

theorem carveCol_exp (x : Int) : ∀ (n : Nat) (t : Tiles) (lo b a : Int),
    (carveCol t x lo n b a).is_explored = (t b a).is_explored := by
  intro n
  induction n with
  | zero => intro t lo b a; rw [carveCol]
  | succ n ih =>
    intro t lo b a
    rw [carveCol, ih, setType_apply, apply_ite Tile.is_explored]
    split_ifs with h
    · rw [h.1, h.2]
    · rfl

theorem carveRect_type (x0 : Int) (w : Nat) : ∀ (m : Nat) (t : Tiles) (y0 b a : Int),
    (carveRect t x0 w y0 m b a).type =
      if y0 ≤ b ∧ b < y0 + m ∧ x0 ≤ a ∧ a < x0 + w then TileType.ground
      else (t b a).type := by
  intro m
  induction m with
  | zero =>
    intro t y0 b a
    rw [carveRect, if_neg]
    rintro ⟨h1, h2, -⟩
    omega
  | succ m ih =>
    intro t y0 b a
    rw [carveRect, ih, carveRow_type]
    split_ifs <;> first | rfl | omega

theorem carveRect_vis (x0 : Int) (w : Nat) : ∀ (m : Nat) (t : Tiles) (y0 b a : Int),
    (carveRect t x0 w y0 m b a).is_visible = (t b a).is_visible := by
  intro m
  induction m with
  | zero => intro t y0 b a; rw [carveRect]
  | succ m ih =>
    intro t y0 b a
    rw [carveRect, ih, carveRow_vis]

theorem carveRect_exp (x0 : Int) (w : Nat) : ∀ (m : Nat) (t : Tiles) (y0 b a : Int),
    (carveRect t x0 w y0 m b a).is_explored = (t b a).is_explored := by
  intro m
  induction m with
  | zero => intro t y0 b a; rw [carveRect]
  | succ m ih =>
    intro t y0 b a
    rw [carveRect, ih, carveRow_exp]

theorem carve_room_type (t : Tiles) (rm : Rect) (hw : 0 ≤ rm.w) (hh : 0 ≤ rm.h) (b a : Int) :
    (carve_room t rm b a).type =
      if inRect rm b a then TileType.ground else (t b a).type := by
  rw [carve_room, carveRect_type]
  unfold inRect
  split_ifs <;> first | rfl | omega

theorem carve_room_vis (t : Tiles) (rm : Rect) (b a : Int) :
    (carve_room t rm b a).is_visible = (t b a).is_visible := by
  rw [carve_room, carveRect_vis]

theorem carve_room_exp (t : Tiles) (rm : Rect) (b a : Int) :
    (carve_room t rm b a).is_explored = (t b a).is_explored := by
  rw [carve_room, carveRect_exp]

theorem carve_h_type (t : Tiles) (x1 x2 y0 b a : Int) :
    (carve_h_corridor t x1 x2 y0 b a).type =
      if b = y0 ∧ min x1 x2 ≤ a ∧ a ≤ max x1 x2 then TileType.ground else (t b a).type := by
  rw [carve_h_corridor, carveRow_type]
  split_ifs <;> first | rfl | omega

theorem carve_h_vis (t : Tiles) (x1 x2 y0 b a : Int) :
    (carve_h_corridor t x1 x2 y0 b a).is_visible = (t b a).is_visible := by
  rw [carve_h_corridor, carveRow_vis]

theorem carve_h_exp (t : Tiles) (x1 x2 y0 b a : Int) :
    (carve_h_corridor t x1 x2 y0 b a).is_explored = (t b a).is_explored := by
  rw [carve_h_corridor, carveRow_exp]

theorem carve_v_type (t : Tiles) (y1 y2 x0 b a : Int) :
    (carve_v_corridor t y1 y2 x0 b a).type =
      if a = x0 ∧ min y1 y2 ≤ b ∧ b ≤ max y1 y2 then TileType.ground else (t b a).type := by
  rw [carve_v_corridor, carveCol_type]
  split_ifs <;> first | rfl | omega

theorem carve_v_vis (t : Tiles) (y1 y2 x0 b a : Int) :
    (carve_v_corridor t y1 y2 x0 b a).is_visible = (t b a).is_visible := by
  rw [carve_v_corridor, carveCol_vis]

theorem carve_v_exp (t : Tiles) (y1 y2 x0 b a : Int) :
    (carve_v_corridor t y1 y2 x0 b a).is_explored = (t b a).is_explored := by
  rw [carve_v_corridor, carveCol_exp]

theorem carve_h_apply (t : Tiles) (x1 x2 y0 b a : Int) :
    carve_h_corridor t x1 x2 y0 b a =
      if b = y0 ∧ min x1 x2 ≤ a ∧ a ≤ max x1 x2 then { t b a with type := TileType.ground }
      else t b a := by
  apply tileExt
  · rw [carve_h_type, apply_ite Tile.type]
  · rw [carve_h_vis, apply_ite Tile.is_visible, ite_self]
  · rw [carve_h_exp, apply_ite Tile.is_explored, ite_self]

theorem carve_v_apply (t : Tiles) (y1 y2 x0 b a : Int) :
    carve_v_corridor t y1 y2 x0 b a =
      if a = x0 ∧ min y1 y2 ≤ b ∧ b ≤ max y1 y2 then { t b a with type := TileType.ground }
      else t b a := by
  apply tileExt
  · rw [carve_v_type, apply_ite Tile.type]
  · rw [carve_v_vis, apply_ite Tile.is_visible, ite_self]
  · rw [carve_v_exp, apply_ite Tile.is_explored, ite_self]

theorem Adjacent.symm1 {p q : Cell} (h : Adjacent p q) : Adjacent q p := by
  unfold Adjacent at h ⊢
  omega

theorem chain_ok (ok : Cell → Prop) {p q : Cell} (hp : ok p)
    (h : Relation.ReflTransGen (fun a b => Adjacent a b ∧ ok b) p q) : ok q := by
  induction h with
  | refl => exact hp
  | tail _ h2 _ => exact h2.2

theorem chain_rev (ok : Cell → Prop) {p q : Cell} (hp : ok p)
    (h : Relation.ReflTransGen (fun a b => Adjacent a b ∧ ok b) p q) :
    Relation.ReflTransGen (fun a b => Adjacent a b ∧ ok b) q p := by
  induction h with
  | refl => exact Relation.ReflTransGen.refl
  | tail h1 h2 ih =>
    exact Relation.ReflTransGen.head ⟨h2.1.symm1, chain_ok ok hp h1⟩ ih

theorem reaches_symm {ok : Cell → Prop} {p q : Cell} (h : Reaches ok p q) : Reaches ok q p :=
  ⟨h.2.1, h.1, chain_rev ok h.1 h.2.2⟩

theorem reaches_trans {ok : Cell → Prop} {p q r : Cell} (h1 : Reaches ok p q)
    (h2 : Reaches ok q r) : Reaches ok p r :=
  ⟨h1.1, h2.2.1, h1.2.2.trans h2.2.2⟩

theorem reaches_mono {ok ok2 : Cell → Prop} (h : ∀ p, ok p → ok2 p) {p q : Cell}
    (hr : Reaches ok p q) : Reaches ok2 p q := by
  obtain ⟨hp, hq, hc⟩ := hr
  refine ⟨h _ hp, h _ hq, ?_⟩
  clear hp hq
  induction hc with
  | refl => exact Relation.ReflTransGen.refl
  | tail _ h2 ih => exact Relation.ReflTransGen.tail ih ⟨h2.1, h _ h2.2⟩

theorem rowChain (ok : Cell → Prop) (y : Int) :
    ∀ (n : Nat) (a : Int), (∀ x : Int, a ≤ x → x ≤ a + n → ok (y, x)) →
    Relation.ReflTransGen (fun u v => Adjacent u v ∧ ok v) (y, a) (y, a + (n : Int)) := by
  intro n
  induction n with
  | zero =>
    intro a _
    simpa using Relation.ReflTransGen.refl
  | succ n ih =>
    intro a h
    have step : Adjacent (y, a + (n : Int)) (y, a + ((n : Int) + 1)) ∧ ok (y, a + ((n : Int) + 1)) := by
      constructor
      · unfold Adjacent; omega
      · exact h _ (by omega) (by push_cast; omega)
    have base := ih a (fun x h1 h2 => h x h1 (by push_cast; omega))
    have : Relation.ReflTransGen (fun u v => Adjacent u v ∧ ok v) (y, a) (y, a + ((n : Int) + 1)) :=
      Relation.ReflTransGen.tail base step
    simpa [add_assoc] using this

theorem rowReaches (ok : Cell → Prop) (y x1 x2 : Int)
    (h : ∀ x, min x1 x2 ≤ x → x ≤ max x1 x2 → ok (y, x)) :
    Reaches ok (y, x1) (y, x2) := by
  rcases le_total x1 x2 with hle | hle
  · have hn : x2 = x1 + ((x2 - x1).toNat : Int) := by omega
    refine ⟨h x1 (by omega) (by omega), h x2 (by omega) (by omega), ?_⟩
    rw [hn]
    exact rowChain ok y _ x1 (fun x ha hb => h x (by omega) (by omega))
  · have hn : x1 = x2 + ((x1 - x2).toNat : Int) := by omega
    refine ⟨h x1 (by omega) (by omega), h x2 (by omega) (by omega), ?_⟩
    apply chain_rev ok (h x2 (by omega) (by omega))
    rw [hn]
    exact rowChain ok y _ x2 (fun x ha hb => h x (by omega) (by omega))

theorem colChain (ok : Cell → Prop) (x : Int) :
    ∀ (n : Nat) (a : Int), (∀ y : Int, a ≤ y → y ≤ a + n → ok (y, x)) →
    Relation.ReflTransGen (fun u v => Adjacent u v ∧ ok v) (a, x) (a + (n : Int), x) := by
  intro n
  induction n with
  | zero =>
    intro a _
    simpa using Relation.ReflTransGen.refl
  | succ n ih =>
    intro a h
    have step : Adjacent (a + (n : Int), x) (a + ((n : Int) + 1), x) ∧ ok (a + ((n : Int) + 1), x) := by
      constructor
      · unfold Adjacent; omega
      · exact h _ (by omega) (by push_cast; omega)
    have base := ih a (fun yy h1 h2 => h yy h1 (by push_cast; omega))
    have : Relation.ReflTransGen (fun u v => Adjacent u v ∧ ok v) (a, x) (a + ((n : Int) + 1), x) :=
      Relation.ReflTransGen.tail base step
    simpa [add_assoc] using this

theorem colReaches (ok : Cell → Prop) (x y1 y2 : Int)
    (h : ∀ y, min y1 y2 ≤ y → y ≤ max y1 y2 → ok (y, x)) :
    Reaches ok (y1, x) (y2, x) := by
  rcases le_total y1 y2 with hle | hle
  · have hn : y2 = y1 + ((y2 - y1).toNat : Int) := by omega
    refine ⟨h y1 (by omega) (by omega), h y2 (by omega) (by omega), ?_⟩
    rw [hn]
    exact colChain ok x _ y1 (fun yy ha hb => h yy (by omega) (by omega))
  · have hn : y1 = y2 + ((y1 - y2).toNat : Int) := by omega
    refine ⟨h y1 (by omega) (by omega), h y2 (by omega) (by omega), ?_⟩
    apply chain_rev ok (h y2 (by omega) (by omega))
    rw [hn]
    exact colChain ok x _ y2 (fun yy ha hb => h yy (by omega) (by omega))

theorem rectReaches (ok : Cell → Prop) (rm : Rect)
    (hok : ∀ y x, inRect rm y x → ok (y, x)) {y1 x1 y2 x2 : Int}
    (h1 : inRect rm y1 x1) (h2 : inRect rm y2 x2) :
    Reaches ok (y1, x1) (y2, x2) := by
  unfold inRect at h1 h2
  have row : Reaches ok (y1, x1) (y1, x2) := by
    apply rowReaches
    intro x hx1 hx2
    apply hok
    unfold inRect
    omega
  have col : Reaches ok (y1, x2) (y2, x2) := by
    apply colReaches
    intro y hy1 hy2
    apply hok
    unfold inRect
    omega
  exact reaches_trans row col


theorem typeMono_refl (t : Tiles) : TypeMono t t := fun _ _ h => h

theorem typeMono_trans {t1 t2 t3 : Tiles} (h1 : TypeMono t1 t2) (h2 : TypeMono t2 t3) :
    TypeMono t1 t3 := fun b a h => h2 b a (h1 b a h)

theorem typeMono_setType (t : Tiles) (y x : Int) (k : TileType) (hk : k ≠ TileType.wall) :
    TypeMono t (setType t y x k) := by
  intro b a h
  rw [setType_apply]
  split_ifs with hc
  · exact hk
  · exact h

theorem typeMono_carve_room (t : Tiles) (rm : Rect) : TypeMono t (carve_room t rm) := by
  intro b a h
  rw [carve_room, carveRect_type]
  split_ifs with hc
  · exact fun hx => TileType.noConfusion hx
  · exact h

theorem typeMono_carve_h (t : Tiles) (x1 x2 y0 : Int) : TypeMono t (carve_h_corridor t x1 x2 y0) := by
  intro b a h
  rw [carve_h_type]
  split_ifs with hc
  · exact fun hx => TileType.noConfusion hx
  · exact h

theorem typeMono_carve_v (t : Tiles) (y1 y2 x0 : Int) : TypeMono t (carve_v_corridor t y1 y2 x0) := by
  intro b a h
  rw [carve_v_type]
  split_ifs with hc
  · exact fun hx => TileType.noConfusion hx
  · exact h

theorem typeMono_carveCorridors (t : Tiles) (coin : Nat) (pc nc : Point) :
    TypeMono t (carveCorridors t coin pc nc) := by
  unfold carveCorridors
  split_ifs
  · exact typeMono_trans (typeMono_carve_h t _ _ _) (typeMono_carve_v _ _ _ _)
  · exact typeMono_trans (typeMono_carve_v t _ _ _) (typeMono_carve_h _ _ _ _)

theorem nwok_mono {t t2 : Tiles} (h : TypeMono t t2) {p : Cell} (hp : NWOk t p) : NWOk t2 p :=
  h p.1 p.2 hp

theorem goodRooms_mono {t t2 : Tiles} (h : TypeMono t t2) {rl : List Rect}
    (hg : GoodRooms t rl) : GoodRooms t2 rl := by
  obtain ⟨h1, h2, h3⟩ := hg
  refine ⟨h1, fun rm hm y x hin => nwok_mono h (h2 rm hm y x hin), ?_⟩
  exact List.Pairwise.imp (fun hr => reaches_mono (fun p hp => nwok_mono h hp) hr) h3

theorem candidate_pos (r : Nat → Nat) (k : Nat) :
    0 < (candidate r k).w ∧ 0 < (candidate r k).h := by
  simp only [candidate, MIN_ROOM_W, MIN_ROOM_H, MAX_ROOM_W, MAX_ROOM_H]
  omega

theorem center_inRect (rm : Rect) (hw : 0 < rm.w) (hh : 0 < rm.h) :
    inRect rm (roomCenter rm).y (roomCenter rm).x := by
  simp only [inRect, roomCenter]
  omega

theorem getLastI_mem (l : List Rect) (h : l ≠ []) : l.getLastI ∈ l := by
  rw [List.getLastI_eq_getLast?, List.getLast?_eq_getLast l h]
  exact List.getLast_mem h

theorem attempt_rejected (r : Nat → Nat) (st : GenState)
    (hf : st.rooms.any (fun q => SDL_HasIntersection (candidate r st.k) q) = true) :
    attempt r st = { st with k := st.k + 4 } := by
  simp only [attempt, hf, if_true]

theorem attempt_accepted_first (r : Nat → Nat) (st : GenState)
    (hf : st.rooms.any (fun q => SDL_HasIntersection (candidate r st.k) q) = false)
    (hlen : st.rooms.length = 0) :
    attempt r st =
      { tiles := carve_room st.tiles (candidate r st.k)
        rooms := st.rooms ++ [candidate r st.k]
        k := st.k + 4 } := by
  simp only [attempt, hf, Bool.false_eq_true, if_false, hlen, lt_irrefl, reduceIte]

theorem attempt_accepted_later (r : Nat → Nat) (st : GenState)
    (hf : st.rooms.any (fun q => SDL_HasIntersection (candidate r st.k) q) = false)
    (hlen : 0 < st.rooms.length) :
    attempt r st =
      { tiles := carveCorridors (carve_room st.tiles (candidate r st.k)) (r (st.k + 4))
          (roomCenter st.rooms.getLastI) (roomCenter (candidate r st.k))
        rooms := st.rooms ++ [candidate r st.k]
        k := st.k + 5 } := by
  simp only [attempt, hf, Bool.false_eq_true, if_false, hlen, if_true]

theorem carveCorridors_reaches (t : Tiles) (coin : Nat) (pc nc : Point) :
    Reaches (NWOk (carveCorridors t coin pc nc)) (pc.y, pc.x) (nc.y, nc.x) := by
  unfold carveCorridors
  split_ifs with hc
  · have hrow : ∀ x, min pc.x nc.x ≤ x → x ≤ max pc.x nc.x →
        NWOk (carve_v_corridor (carve_h_corridor t pc.x nc.x pc.y) pc.y nc.y nc.x) (pc.y, x) := by
      intro x h1 h2
      unfold NWOk
      dsimp only
      rw [carve_v_type]
      split_ifs with h3
      · exact fun hx => TileType.noConfusion hx
      · rw [carve_h_type, if_pos ⟨rfl, h1, h2⟩]
        exact fun hx => TileType.noConfusion hx
    have hcol : ∀ y, min pc.y nc.y ≤ y → y ≤ max pc.y nc.y →
        NWOk (carve_v_corridor (carve_h_corridor t pc.x nc.x pc.y) pc.y nc.y nc.x) (y, nc.x) := by
      intro y h1 h2
      unfold NWOk
      dsimp only
      rw [carve_v_type, if_pos ⟨rfl, h1, h2⟩]
      exact fun hx => TileType.noConfusion hx
    exact reaches_trans (rowReaches _ pc.y pc.x nc.x hrow) (colReaches _ nc.x pc.y nc.y hcol)
  · have hcol : ∀ y, min pc.y nc.y ≤ y → y ≤ max pc.y nc.y →
        NWOk (carve_h_corridor (carve_v_corridor t pc.y nc.y pc.x) pc.x nc.x nc.y) (y, pc.x) := by
      intro y h1 h2
      unfold NWOk
      dsimp only
      rw [carve_h_type]
      split_ifs with h3
      · exact fun hx => TileType.noConfusion hx
      · rw [carve_v_type, if_pos ⟨rfl, h1, h2⟩]
        exact fun hx => TileType.noConfusion hx
    have hrow : ∀ x, min pc.x nc.x ≤ x → x ≤ max pc.x nc.x →
        NWOk (carve_h_corridor (carve_v_corridor t pc.y nc.y pc.x) pc.x nc.x nc.y) (nc.y, x) := by
      intro x h1 h2
      unfold NWOk
      dsimp only
      rw [carve_h_type, if_pos ⟨rfl, h1, h2⟩]
      exact fun hx => TileType.noConfusion hx
    exact reaches_trans (colReaches _ pc.x pc.y nc.y hcol) (rowReaches _ nc.y pc.x nc.x hrow)

theorem pairwise_getLast_rel {α : Type} {R : α → α → Prop} (l : List α) (hne : l ≠ [])
    (hp : l.Pairwise R) (a : α) (ha : a ∈ l) (hna : a ≠ l.getLast hne) :
    R a (l.getLast hne) := by
  have hsplit : l.dropLast ++ [l.getLast hne] = l := List.dropLast_append_getLast hne
  rw [← hsplit, List.pairwise_append] at hp
  rw [← hsplit] at ha
  have hmem : a ∈ l.dropLast := by
    rcases List.mem_append.mp ha with h1 | h1
    · exact h1
    · rw [List.mem_singleton] at h1
      exact absurd h1 hna
  exact hp.2.2 a hmem (l.getLast hne) (List.mem_singleton.mpr rfl)

theorem attempt_good (r : Nat → Nat) (st : GenState) (hg : GoodRooms st.tiles st.rooms) :
    GoodRooms (attempt r st).tiles (attempt r st).rooms := by
  by_cases hf : st.rooms.any (fun q => SDL_HasIntersection (candidate r st.k) q) = true
  · rw [attempt_rejected r st hf]
    exact hg
  · rw [Bool.not_eq_true] at hf
    rcases Nat.eq_zero_or_pos st.rooms.length with hlen | hlen
    · rw [attempt_accepted_first r st hf hlen]
      have hemp : st.rooms = [] := List.length_eq_zero.mp hlen
      dsimp only
      rw [hemp]
      refine ⟨?_, ?_, ?_⟩
      · intro rm hm
        rw [List.nil_append, List.mem_singleton] at hm
        subst hm
        exact candidate_pos r st.k
      · intro rm hm y x hin
        rw [List.nil_append, List.mem_singleton] at hm
        subst hm
        unfold NWOk
        dsimp only
        rw [carve_room_type st.tiles _ (le_of_lt (candidate_pos r st.k).1)
          (le_of_lt (candidate_pos r st.k).2), if_pos hin]
        exact fun hx => TileType.noConfusion hx
      · rw [List.nil_append]
        exact List.pairwise_singleton _ _
    · rw [attempt_accepted_later r st hf hlen]
      have hne : st.rooms ≠ [] := by
        intro hx
        rw [hx] at hlen
        exact Nat.lt_irrefl 0 hlen
      have hmono : TypeMono st.tiles
          (carveCorridors (carve_room st.tiles (candidate r st.k)) (r (st.k + 4))
            (roomCenter st.rooms.getLastI) (roomCenter (candidate r st.k))) :=
        typeMono_trans (typeMono_carve_room _ _) (typeMono_carveCorridors _ _ _ _)
      have hg2 := goodRooms_mono hmono hg
      dsimp only
      refine ⟨?_, ?_, ?_⟩
      · intro rm hm
        rw [List.mem_append, List.mem_singleton] at hm
        rcases hm with hm | hm
        · exact hg.1 rm hm
        · subst hm
          exact candidate_pos r st.k
      · intro rm hm y x hin
        rw [List.mem_append, List.mem_singleton] at hm
        rcases hm with hm | hm
        · exact hg2.2.1 rm hm y x hin
        · subst hm
          apply nwok_mono (typeMono_carveCorridors _ _ _ _)
          unfold NWOk
          dsimp only
          rw [carve_room_type st.tiles _ (le_of_lt (candidate_pos r st.k).1)
            (le_of_lt (candidate_pos r st.k).2), if_pos hin]
          exact fun hx => TileType.noConfusion hx
      · rw [List.pairwise_append]
        refine ⟨hg2.2.2, List.pairwise_singleton _ _, ?_⟩
        intro a ha b hb
        rw [List.mem_singleton] at hb
        subst hb
        have hcr := carveCorridors_reaches (carve_room st.tiles (candidate r st.k))
          (r (st.k + 4)) (roomCenter st.rooms.getLastI) (roomCenter (candidate r st.k))
        by_cases hap : a = st.rooms.getLastI
        · rw [hap]
          exact hcr
        · have hlastI : st.rooms.getLastI = st.rooms.getLast hne := by
            rw [List.getLastI_eq_getLast?, List.getLast?_eq_getLast st.rooms hne]
          have hrel := pairwise_getLast_rel st.rooms hne hg2.2.2 a ha
            (fun hx => hap (hx.trans hlastI.symm))
          rw [← hlastI] at hrel
          exact reaches_trans hrel hcr

theorem genLoop_good (r : Nat → Nat) :
    ∀ (n : Nat) (st : GenState), GoodRooms st.tiles st.rooms →
      GoodRooms (genLoop r st n).tiles (genLoop r st n).rooms := by
  intro n
  induction n with
  | zero => intro st hg; rw [genLoop]; exact hg
  | succ n ih => intro st hg; rw [genLoop]; exact ih _ (attempt_good r st hg)

theorem genStateFinal_good (r : Nat → Nat) (k : Nat) :
    GoodRooms (genStateFinal r k).tiles (genStateFinal r k).rooms := by
  apply genLoop_good
  exact ⟨fun rm hm => absurd hm (List.not_mem_nil rm), fun rm hm => absurd hm (List.not_mem_nil rm),
    List.Pairwise.nil⟩

theorem genFloor_tiles_eq (r : Nat → Nat) (k : Nat) :
    (generate_floor r k).1.tiles =
      setType
        (setType (genStateFinal r k).tiles (roomCenter (genStateFinal r k).rooms.headI).y
          (roomCenter (genStateFinal r k).rooms.headI).x TileType.stairsUp)
        (roomCenter (genStateFinal r k).rooms.getLastI).y
        (roomCenter (genStateFinal r k).rooms.getLastI).x TileType.stairsDown := rfl

theorem genFloor_good (r : Nat → Nat) (k : Nat) :
    GoodRooms (generate_floor r k).1.tiles (gen_rooms r k) := by
  rw [genFloor_tiles_eq]
  apply goodRooms_mono
  · exact typeMono_trans
      (typeMono_setType _ _ _ _ (fun hx => TileType.noConfusion hx))
      (typeMono_setType _ _ _ _ (fun hx => TileType.noConfusion hx))
  · exact genStateFinal_good r k

theorem markTile_apply (t : Tiles) (y x b a : Int) :
    markTile t y x b a =
      if b = y ∧ a = x then { t y x with is_visible := true, is_explored := true }
      else t b a := rfl

theorem clearVisible_apply (t : Tiles) (b a : Int) :
    clearVisible t b a =
      if 0 ≤ b ∧ b < (GRID_ROWS : Int) ∧ 0 ≤ a ∧ a < (GRID_COLS : Int) then
        { t b a with is_visible := false }
      else t b a := rfl

theorem clInner_preserves (P : Tiles → Prop)
    (hmark : ∀ t y x, P t → P (markTile t y x))
    (spawn : Tiles → ℚ → ℚ → Tiles) (hspawn : ∀ t s e, P t → P (spawn t s e))
    (px py : Int) (oct : Nat) (dx : Int) :
    ∀ (n : Nat) (dy : Int) (t : Tiles) (s : ℚ) (bl : Bool), P t →
      P (clInner spawn px py oct dx n dy t s bl).1 := by
  intro n
  induction n with
  | zero => intro dy t s bl hp; exact hp
  | succ n ih =>
    intro dy t s bl hp
    rw [clInner]
    dsimp only
    split_ifs with h1 h2 h3
    · exact ih (dy - 1) t s bl hp
    · exact ih (dy - 1) _ _ true (hspawn _ _ _ (hmark _ _ _ hp))
    · exact ih (dy - 1) _ _ true (hmark _ _ _ hp)
    · exact ih (dy - 1) _ s false (hmark _ _ _ hp)

theorem clOuter_preserves (P : Tiles → Prop)
    (hmark : ∀ t y x, P t → P (markTile t y x)) (px py : Int) (oct : Nat) :
    ∀ (fuel i : Nat) (t : Tiles) (s e : ℚ), P t → P (clOuter px py oct fuel i t s e) := by
  intro fuel
  induction fuel with
  | zero => intro i t s e hp; exact hp
  | succ fuel ih =>
    intro i t s e hp
    rw [clOuter]
    dsimp only
    split_ifs with h1 h2
    · exact clInner_preserves P hmark _
        (fun t2 s2 e2 hp2 => by
          split_ifs with hslt
          · exact hp2
          · exact ih (i + 1) t2 s2 e2 hp2)
        px py oct _ _ _ t s false hp
    · apply ih
      exact clInner_preserves P hmark _
        (fun t2 s2 e2 hp2 => by
          split_ifs with hslt
          · exact hp2
          · exact ih (i + 1) t2 s2 e2 hp2)
        px py oct _ _ _ t s false hp
    · exact hp

theorem cast_light_preserves (P : Tiles → Prop)
    (hmark : ∀ t y x, P t → P (markTile t y x)) (px py : Int) (oct row : Nat) (s e : ℚ)
    (t : Tiles) (hp : P t) : P (cast_light t px py oct row s e) := by
  rw [cast_light]
  split_ifs with h1
  · exact hp
  · exact clOuter_preserves P hmark px py oct _ row t s e hp

theorem foldl_cast_preserves (P : Tiles → Prop)
    (hmark : ∀ t y x, P t → P (markTile t y x)) (px py : Int) :
    ∀ (l : List Nat) (t : Tiles), P t →
      P (l.foldl (fun acc oct => cast_light acc px py oct 1 1 0) t) := by
  intro l
  induction l with
  | nil => intro t hp; exact hp
  | cons o os ih =>
    intro t hp
    rw [List.foldl_cons]
    exact ih _ (cast_light_preserves P hmark px py o 1 1 0 t hp)

theorem update_fov_meta (gs : GameState) :
    (update_fov gs).current_floor_index = gs.current_floor_index ∧
    (update_fov gs).player = gs.player ∧
    (update_fov gs).floor_count = gs.floor_count := ⟨rfl, rfl, rfl⟩

theorem update_fov_stairs (gs : GameState) (j : Nat) :
    ((update_fov gs).floors j).stairs_up = (gs.floors j).stairs_up ∧
    ((update_fov gs).floors j).stairs_down = (gs.floors j).stairs_down := by
  rw [update_fov]
  dsimp only
  split_ifs with h
  · rw [h]; exact ⟨rfl, rfl⟩
  · exact ⟨rfl, rfl⟩

theorem update_fov_tiles (gs : GameState) :
    (update_fov gs).floors gs.current_floor_index =
      { gs.floors gs.current_floor_index with
        tiles := (List.range 8).foldl
          (fun acc oct => cast_light acc gs.player.x gs.player.y oct 1 1 0)
          (markTile (clearVisible (gs.floors gs.current_floor_index).tiles)
            gs.player.y gs.player.x) } := by
  rw [update_fov]
  dsimp only
  rw [if_pos rfl]

theorem update_fov_other (gs : GameState) (j : Nat) (hj : j ≠ gs.current_floor_index) :
    (update_fov gs).floors j = gs.floors j := by
  rw [update_fov]
  dsimp only
  rw [if_neg hj]

theorem update_fov_type_eq (gs : GameState) (j : Nat) (y x : Int) :
    (((update_fov gs).floors j).tiles y x).type = (((gs.floors j).tiles y x).type) := by
  by_cases hj : j = gs.current_floor_index
  · subst hj
    rw [update_fov_tiles]
    dsimp only
    have := foldl_cast_preserves
      (fun t => ∀ b a, (t b a).type = (((gs.floors gs.current_floor_index).tiles b a).type))
      (fun t yy xx hp b a => by
        rw [markTile_apply]
        split_ifs with h
        · rw [h.1, h.2]; exact hp yy xx
        · exact hp b a)
      gs.player.x gs.player.y (List.range 8)
      (markTile (clearVisible (gs.floors gs.current_floor_index).tiles) gs.player.y gs.player.x)
      (fun b a => by
        rw [markTile_apply]
        split_ifs with h
        · rw [h.1, h.2, clearVisible_apply]
          split_ifs <;> rfl
        · rw [clearVisible_apply]
          split_ifs <;> rfl)
    exact this y x
  · rw [update_fov_other gs j hj]

theorem update_fov_exp_mono (gs : GameState) (j : Nat) (y x : Int)
    (h : (((gs.floors j).tiles y x).is_explored) = true) :
    (((update_fov gs).floors j).tiles y x).is_explored = true := by
  by_cases hj : j = gs.current_floor_index
  · subst hj
    rw [update_fov_tiles]
    dsimp only
    have := foldl_cast_preserves
      (fun t => ∀ b a, (((gs.floors gs.current_floor_index).tiles b a).is_explored = true) →
        (t b a).is_explored = true)
      (fun t yy xx hp b a hba => by
        rw [markTile_apply]
        split_ifs with hc
        · rfl
        · exact hp b a hba)
      gs.player.x gs.player.y (List.range 8)
      (markTile (clearVisible (gs.floors gs.current_floor_index).tiles) gs.player.y gs.player.x)
      (fun b a hba => by
        rw [markTile_apply]
        split_ifs with hc
        · rfl
        · rw [clearVisible_apply]
          split_ifs
          · exact hba
          · exact hba)
    exact this y x h
  · rw [update_fov_other gs j hj]
    exact h

theorem tiles_vie_update (gs : GameState)
    (h : ∀ b a, (((gs.floors gs.current_floor_index).tiles b a).is_visible = true) →
      (((gs.floors gs.current_floor_index).tiles b a).is_explored = true)) :
    ∀ b a,
      ((((update_fov gs).floors gs.current_floor_index).tiles b a).is_visible = true) →
      ((((update_fov gs).floors gs.current_floor_index).tiles b a).is_explored = true) := by
  rw [update_fov_tiles]
  dsimp only
  exact foldl_cast_preserves
    (fun t => ∀ b a, (t b a).is_visible = true → (t b a).is_explored = true)
    (fun t yy xx hp b a => by
      rw [markTile_apply]
      split_ifs with hc
      · intro _; rfl
      · exact hp b a)
    gs.player.x gs.player.y (List.range 8)
    (markTile (clearVisible (gs.floors gs.current_floor_index).tiles) gs.player.y gs.player.x)
    (fun b a => by
      rw [markTile_apply]
      split_ifs with hc
      · intro _; rfl
      · rw [clearVisible_apply]
        split_ifs with hc2
        · intro hfalse
          exact absurd hfalse (by simp)
        · exact h b a)

theorem update_fov_vie (gs : GameState) (h : VisibleImpliesExplored gs) :
    VisibleImpliesExplored (update_fov gs) := by
  intro j y x
  by_cases hj : j = gs.current_floor_index
  · subst hj
    exact tiles_vie_update gs (fun b a => h gs.current_floor_index b a) y x
  · rw [update_fov_other gs j hj]
    exact h j y x

theorem pointExt (p q : Point) (hx : p.x = q.x) (hy : p.y = q.y) : p = q := by
  cases p; cases q; simp_all

theorem setType_type (t : Tiles) (y x : Int) (k : TileType) (b a : Int) :
    (setType t y x k b a).type = if b = y ∧ a = x then k else (t b a).type := by
  rw [setType_apply, apply_ite Tile.type]

theorem setType_vis (t : Tiles) (y x : Int) (k : TileType) (b a : Int) :
    (setType t y x k b a).is_visible = (t b a).is_visible := by
  rw [setType_apply]
  split_ifs with h
  · rw [h.1, h.2]
  · rfl

theorem setType_exp (t : Tiles) (y x : Int) (k : TileType) (b a : Int) :
    (setType t y x k b a).is_explored = (t b a).is_explored := by
  rw [setType_apply]
  split_ifs with h
  · rw [h.1, h.2]
  · rfl

theorem carveCorridors_vis (t : Tiles) (coin : Nat) (pc nc : Point) (b a : Int) :
    (carveCorridors t coin pc nc b a).is_visible = (t b a).is_visible := by
  unfold carveCorridors
  split_ifs
  · rw [carve_v_vis, carve_h_vis]
  · rw [carve_h_vis, carve_v_vis]

theorem carveCorridors_exp (t : Tiles) (coin : Nat) (pc nc : Point) (b a : Int) :
    (carveCorridors t coin pc nc b a).is_explored = (t b a).is_explored := by
  unfold carveCorridors
  split_ifs
  · rw [carve_v_exp, carve_h_exp]
  · rw [carve_h_exp, carve_v_exp]

theorem attempt_flags (r : Nat → Nat) (st : GenState) (b a : Int) :
    ((attempt r st).tiles b a).is_visible = (st.tiles b a).is_visible ∧
    ((attempt r st).tiles b a).is_explored = (st.tiles b a).is_explored := by
  by_cases hf : st.rooms.any (fun q => SDL_HasIntersection (candidate r st.k) q) = true
  · rw [attempt_rejected r st hf]
    exact ⟨rfl, rfl⟩
  · rw [Bool.not_eq_true] at hf
    rcases Nat.eq_zero_or_pos st.rooms.length with hlen | hlen
    · rw [attempt_accepted_first r st hf hlen]
      exact ⟨carve_room_vis _ _ _ _, carve_room_exp _ _ _ _⟩
    · rw [attempt_accepted_later r st hf hlen]
      dsimp only
      rw [carveCorridors_vis, carveCorridors_exp, carve_room_vis, carve_room_exp]
      exact ⟨rfl, rfl⟩

theorem genLoop_flags (r : Nat → Nat) :
    ∀ (n : Nat) (st : GenState) (b a : Int),
      ((genLoop r st n).tiles b a).is_visible = (st.tiles b a).is_visible ∧
      ((genLoop r st n).tiles b a).is_explored = (st.tiles b a).is_explored := by
  intro n
  induction n with
  | zero => intro st b a; exact ⟨rfl, rfl⟩
  | succ n ih =>
    intro st b a
    rw [genLoop]
    rcases ih (attempt r st) b a with ⟨h1, h2⟩
    rcases attempt_flags r st b a with ⟨h3, h4⟩
    exact ⟨h1.trans h3, h2.trans h4⟩

theorem genFloor_flags (r : Nat → Nat) (k : Nat) (b a : Int) :
    ((generate_floor r k).1.tiles b a).is_visible = false ∧
    ((generate_floor r k).1.tiles b a).is_explored = false := by
  have h0 := genLoop_flags r MAX_ROOMS ⟨initialTiles, [], k⟩ b a
  rw [genFloor_tiles_eq, setType_vis, setType_vis, setType_exp, setType_exp, genStateFinal]
  exact ⟨h0.1.trans rfl, h0.2.trans rfl⟩

theorem genFloor_sd_type (r : Nat → Nat) (k : Nat) :
    ((generate_floor r k).1.tiles (generate_floor r k).1.stairs_down.y
      (generate_floor r k).1.stairs_down.x).type = TileType.stairsDown := by
  rw [genFloor_tiles_eq, setType_type, if_pos ⟨rfl, rfl⟩]

theorem genFloor_su_type (r : Nat → Nat) (k : Nat) :
    ((generate_floor r k).1.tiles (generate_floor r k).1.stairs_up.y
      (generate_floor r k).1.stairs_up.x).type =
      if (generate_floor r k).1.stairs_up = (generate_floor r k).1.stairs_down then
        TileType.stairsDown
      else TileType.stairsUp := by
  rw [genFloor_tiles_eq, setType_type]
  by_cases hc : (generate_floor r k).1.stairs_up = (generate_floor r k).1.stairs_down
  · rw [if_pos hc]
    have h1 : (generate_floor r k).1.stairs_up.y = (generate_floor r k).1.stairs_down.y :=
      congrArg Point.y hc
    have h2 : (generate_floor r k).1.stairs_up.x = (generate_floor r k).1.stairs_down.x :=
      congrArg Point.x hc
    rw [if_pos ⟨h1, h2⟩]
  · rw [if_neg hc, if_neg, setType_type, if_pos ⟨rfl, rfl⟩]
    intro hcomp
    exact hc (pointExt _ _ hcomp.2 hcomp.1)

theorem handle_key_cases (gs : GameState) (d : Dir) :
    handle_input_key gs d = gs ∨
    ∃ gs2 : GameState, gs2.floors = gs.floors ∧ handle_input_key gs d = update_fov gs2 := by
  rw [handle_input_key]
  dsimp only
  by_cases hb : gs.player.x + dxOf d < 0 ∨ (GRID_COLS : Int) ≤ gs.player.x + dxOf d ∨
      gs.player.y + dyOf d < 0 ∨ (GRID_ROWS : Int) ≤ gs.player.y + dyOf d
  · rw [if_pos hb]
    exact Or.inl rfl
  · rw [if_neg hb]
    split
    · exact Or.inl rfl
    · split_ifs with h
      · exact Or.inr ⟨{ gs with current_floor_index := gs.current_floor_index + 1, player := (gs.floors (gs.current_floor_index + 1)).stairs_up }, rfl, rfl⟩
      · exact Or.inl rfl
    · split_ifs with h
      · exact Or.inr ⟨{ gs with current_floor_index := gs.current_floor_index - 1, player := (gs.floors (gs.current_floor_index - 1)).stairs_down }, rfl, rfl⟩
      · exact Or.inl rfl
    · exact Or.inr ⟨{ gs with player := ⟨gs.player.x + dxOf d, gs.player.y + dyOf d⟩ }, rfl, rfl⟩

theorem handle_key_exp_mono (gs : GameState) (d : Dir) (j : Nat) (y x : Int)
    (h : ((gs.floors j).tiles y x).is_explored = true) :
    (((handle_input_key gs d).floors j).tiles y x).is_explored = true := by
  rcases handle_key_cases gs d with hc | ⟨gs2, hfl, hc⟩
  · rw [hc]; exact h
  · rw [hc]
    apply update_fov_exp_mono
    rw [hfl]
    exact h

theorem handle_key_vie (gs : GameState) (d : Dir) (h : VisibleImpliesExplored gs) :
    VisibleImpliesExplored (handle_input_key gs d) := by
  rcases handle_key_cases gs d with hc | ⟨gs2, hfl, hc⟩
  · rw [hc]; exact h
  · rw [hc]
    apply update_fov_vie
    intro ℓ y x
    rw [hfl]
    exact h ℓ y x

theorem gen_floors_zero (r : Nat → Nat) : gen_floors r 0 = generate_floor r 0 := by
  rw [gen_floors]

theorem gen_floors_succ (r : Nat → Nat) (i : Nat) :
    gen_floors r (i + 1) = generate_floor r (gen_floors r i).2 := by
  rw [gen_floors]

theorem raw_is_gen (r : Nat → Nat) (i : Nat) :
    ∃ k2, gen_floors r i = generate_floor r k2 := by
  cases i with
  | zero => exact ⟨0, gen_floors_zero r⟩
  | succ i => exact ⟨(gen_floors r i).2, gen_floors_succ r i⟩

theorem raw_vis_false (r : Nat → Nat) (i : Nat) (y x : Int) :
    (((gen_floors r i).1).tiles y x).is_visible = false := by
  obtain ⟨k2, hk⟩ := raw_is_gen r i
  rw [hk]
  exact (genFloor_flags r k2 y x).1

theorem raw_exp_false (r : Nat → Nat) (i : Nat) (y x : Int) :
    (((gen_floors r i).1).tiles y x).is_explored = false := by
  obtain ⟨k2, hk⟩ := raw_is_gen r i
  rw [hk]
  exact (genFloor_flags r k2 y x).2

theorem fixedFloors_0 (r : Nat → Nat) : fixedFloors r 0 =
    { (gen_floors r 0).1 with
      tiles := setType (gen_floors r 0).1.tiles (gen_floors r 0).1.stairs_up.y
        (gen_floors r 0).1.stairs_up.x TileType.ground } := by
  norm_num [fixedFloors, DUNGEON_FLOOR_COUNT]

theorem fixedFloors_last (r : Nat → Nat) : fixedFloors r 4 =
    { (gen_floors r 4).1 with
      tiles := setType (gen_floors r 4).1.tiles (gen_floors r 4).1.stairs_down.y
        (gen_floors r 4).1.stairs_down.x TileType.ground } := by
  norm_num [fixedFloors, DUNGEON_FLOOR_COUNT]

theorem fixedFloors_mid (r : Nat → Nat) (ℓ : Nat) (h0 : ℓ ≠ 0) (h4 : ℓ ≠ 4) :
    fixedFloors r ℓ = (gen_floors r ℓ).1 := by
  have h4' : ℓ ≠ DUNGEON_FLOOR_COUNT - 1 := by
    intro hx
    exact h4 (by rw [hx]; rfl)
  simp only [fixedFloors]
  rw [if_neg h4', if_neg h0]

theorem pre_fov_vis_false (r : Nat → Nat) (ℓ : Nat) (y x : Int) :
    (((pre_fov_state r).floors ℓ).tiles y x).is_visible = false := by
  show ((fixedFloors r ℓ).tiles y x).is_visible = false
  by_cases h4 : ℓ = 4
  · subst h4
    rw [fixedFloors_last]
    dsimp only
    rw [setType_vis]
    exact raw_vis_false r 4 y x
  · by_cases h0 : ℓ = 0
    · subst h0
      rw [fixedFloors_0]
      dsimp only
      rw [setType_vis]
      exact raw_vis_false r 0 y x
    · rw [fixedFloors_mid r ℓ h0 h4]
      exact raw_vis_false r ℓ y x

theorem init_vie (r : Nat → Nat) : VisibleImpliesExplored (init_state r) := by
  rw [init_state]
  apply update_fov_vie
  intro ℓ y x hv
  rw [pre_fov_vis_false r ℓ y x] at hv
  exact absurd hv Bool.false_ne_true

theorem hasIntersection_symm (A B : Rect) :
    SDL_HasIntersection A B = SDL_HasIntersection B A := by
  unfold SDL_HasIntersection
  rw [max_comm B.x A.x, min_comm (B.x + B.w) (A.x + A.w), max_comm B.y A.y,
    min_comm (B.y + B.h) (A.y + A.h)]
  cases SDL_RectEmpty A <;> cases SDL_RectEmpty B <;> rfl

theorem attempt_rooms (r : Nat → Nat) (st : GenState) :
    ((attempt r st).rooms = st.rooms ∧
      st.rooms.any (fun q => SDL_HasIntersection (candidate r st.k) q) = true) ∨
    ((attempt r st).rooms = st.rooms ++ [candidate r st.k] ∧
      st.rooms.any (fun q => SDL_HasIntersection (candidate r st.k) q) = false) := by
  by_cases hf : st.rooms.any (fun q => SDL_HasIntersection (candidate r st.k) q) = true
  · left
    refine ⟨?_, hf⟩
    rw [attempt_rejected r st hf]
  · right
    rw [Bool.not_eq_true] at hf
    refine ⟨?_, hf⟩
    rcases Nat.eq_zero_or_pos st.rooms.length with hlen | hlen
    · rw [attempt_accepted_first r st hf hlen]
    · rw [attempt_accepted_later r st hf hlen]

theorem attempt_pairwise (r : Nat → Nat) (st : GenState)
    (h : st.rooms.Pairwise (fun a b => SDL_HasIntersection b a = false)) :
    (attempt r st).rooms.Pairwise (fun a b => SDL_HasIntersection b a = false) := by
  rcases attempt_rooms r st with ⟨he, -⟩ | ⟨he, hf⟩
  · rw [he]; exact h
  · rw [he, List.pairwise_append]
    refine ⟨h, List.pairwise_singleton _ _, ?_⟩
    intro a ha b hb
    rw [List.mem_singleton] at hb
    subst hb
    exact Bool.eq_false_iff.mpr (List.any_eq_false.mp hf a ha)

theorem genLoop_pairwise (r : Nat → Nat) :
    ∀ (n : Nat) (st : GenState),
      st.rooms.Pairwise (fun a b => SDL_HasIntersection b a = false) →
      (genLoop r st n).rooms.Pairwise (fun a b => SDL_HasIntersection b a = false) := by
  intro n
  induction n with
  | zero => intro st h; exact h
  | succ n ih => intro st h; rw [genLoop]; exact ih _ (attempt_pairwise r st h)

theorem gen_rooms_pairwise (r : Nat → Nat) (k : Nat) :
    (gen_rooms r k).Pairwise (fun a b => SDL_HasIntersection b a = false) := by
  exact genLoop_pairwise r MAX_ROOMS ⟨initialTiles, [], k⟩ List.Pairwise.nil

theorem carve_h_swap (t : Tiles) (x1 x2 y0 : Int) :
    carve_h_corridor t x1 x2 y0 = carve_h_corridor t x2 x1 y0 := by
  funext b a
  simp only [carve_h_apply]
  rw [min_comm x2 x1, max_comm x2 x1]

theorem carve_v_swap (t : Tiles) (y1 y2 x0 : Int) :
    carve_v_corridor t y1 y2 x0 = carve_v_corridor t y2 y1 x0 := by
  funext b a
  simp only [carve_v_apply]
  rw [min_comm y2 y1, max_comm y2 y1]

theorem carve_h_idem (t : Tiles) (x1 x2 y0 : Int) :
    carve_h_corridor (carve_h_corridor t x1 x2 y0) x1 x2 y0 = carve_h_corridor t x1 x2 y0 := by
  funext b a
  simp only [carve_h_apply]
  split_ifs <;> rfl

theorem carve_v_idem (t : Tiles) (y1 y2 x0 : Int) :
    carve_v_corridor (carve_v_corridor t y1 y2 x0) y1 y2 x0 = carve_v_corridor t y1 y2 x0 := by
  funext b a
  simp only [carve_v_apply]
  split_ifs <;> rfl

theorem attempt_empty_rooms (r : Nat → Nat) (t : Tiles) (k : Nat) :
    (attempt r ⟨t, [], k⟩).rooms = [candidate r k] := by
  rw [attempt_accepted_first r ⟨t, [], k⟩ rfl rfl]
  simp

theorem attempt_len_le (r : Nat → Nat) (st : GenState) :
    st.rooms.length ≤ (attempt r st).rooms.length := by
  rcases attempt_rooms r st with ⟨he, -⟩ | ⟨he, -⟩ <;> rw [he]
  all_goals simp

theorem genLoop_len_le (r : Nat → Nat) :
    ∀ (n : Nat) (st : GenState), st.rooms.length ≤ (genLoop r st n).rooms.length := by
  intro n
  induction n with
  | zero => intro st; exact Nat.le_refl _
  | succ n ih =>
    intro st
    rw [genLoop]
    exact Nat.le_trans (attempt_len_le r st) (ih (attempt r st))

theorem gen_rooms_len (r : Nat → Nat) (k : Nat) : 1 ≤ (gen_rooms r k).length := by
  show 1 ≤ (genStateFinal r k).rooms.length
  rw [genStateFinal, show MAX_ROOMS = 14 + 1 from rfl, genLoop]
  have h1 : (attempt r ⟨initialTiles, [], k⟩).rooms.length = 1 := by
    rw [attempt_empty_rooms]
    rfl
  have := genLoop_len_le r 14 (attempt r ⟨initialTiles, [], k⟩)
  omega

theorem gen_rooms_ne_nil (r : Nat → Nat) (k : Nat) : gen_rooms r k ≠ [] := by
  intro h
  have := gen_rooms_len r k
  rw [h] at this
  exact absurd this (by decide)

theorem clInner_spawn_congr (s1 s2 : Tiles → ℚ → ℚ → Tiles)
    (h : ∀ t u v, s1 t u v = s2 t u v) (px py : Int) (oct : Nat) (dx : Int) :
    ∀ (n : Nat) (dy : Int) (t : Tiles) (s : ℚ) (bl : Bool),
      clInner s1 px py oct dx n dy t s bl = clInner s2 px py oct dx n dy t s bl := by
  intro n
  induction n with
  | zero => intro dy t s bl; rfl
  | succ n ih =>
    intro dy t s bl
    rw [clInner, clInner]
    dsimp only
    split_ifs with h1 h2 h3
    · exact ih (dy - 1) t s bl
    · rw [h]
      exact ih (dy - 1) _ _ true
    · exact ih (dy - 1) _ _ true
    · exact ih (dy - 1) _ s false

theorem clOuter_fuel_irrel (px py : Int) (oct : Nat) :
    ∀ (f i : Nat) (t : Tiles) (s e : ℚ), GRID_ROWS + GRID_COLS - i ≤ f →
      clOuter px py oct f i t s e =
        clOuter px py oct (GRID_ROWS + GRID_COLS - i) i t s e := by
  intro f
  induction f with
  | zero =>
    intro i t s e hle
    rw [Nat.le_zero.mp hle]
  | succ f ih =>
    intro i t s e hle
    by_cases hi : i < GRID_ROWS + GRID_COLS
    · have hSi : GRID_ROWS + GRID_COLS - i = (GRID_ROWS + GRID_COLS - (i + 1)) + 1 := by omega
      rw [hSi, clOuter, clOuter]
      dsimp only
      rw [if_pos hi, if_pos hi]
      have hsp : ∀ (t2 : Tiles) (s2 e2 : ℚ),
          (if s2 < e2 then t2 else clOuter px py oct f (i + 1) t2 s2 e2) =
          (if s2 < e2 then t2
           else clOuter px py oct (GRID_ROWS + GRID_COLS - (i + 1)) (i + 1) t2 s2 e2) := by
        intro t2 s2 e2
        split_ifs with hslt
        · rfl
        · exact ih (i + 1) t2 s2 e2 (by omega)
      rw [clInner_spawn_congr _ _ hsp]
      split_ifs with hbl
      · rfl
      · exact ih (i + 1) _ _ e (by omega)
    · rw [clOuter]
      dsimp only
      rw [if_neg hi, Nat.sub_eq_zero_of_le (by omega), clOuter]

theorem cast_light_early_return (t : Tiles) (px py : Int) (oct row : Nat) (s e : ℚ)
    (h : s < e) : cast_light t px py oct row s e = t := by
  rw [cast_light, if_pos h]

theorem cast_light_row_bound (t : Tiles) (px py : Int) (oct row : Nat) (s e : ℚ)
    (h : GRID_ROWS + GRID_COLS ≤ row) : cast_light t px py oct row s e = t := by
  rw [cast_light, Nat.sub_eq_zero_of_le h]
  split_ifs with h1
  · rfl
  · rw [clOuter]

theorem handle_key_down_eq (gs : GameState) (d : Dir)
    (hb : ¬(gs.player.x + dxOf d < 0 ∨ (GRID_COLS : Int) ≤ gs.player.x + dxOf d ∨
      gs.player.y + dyOf d < 0 ∨ (GRID_ROWS : Int) ≤ gs.player.y + dyOf d))
    (ht : ((gs.floors gs.current_floor_index).tiles (gs.player.y + dyOf d)
      (gs.player.x + dxOf d)).type = TileType.stairsDown)
    (hc : gs.current_floor_index < gs.floor_count - 1) :
    handle_input_key gs d = update_fov { gs with
      current_floor_index := gs.current_floor_index + 1,
      player := (gs.floors (gs.current_floor_index + 1)).stairs_up } := by
  rw [handle_input_key]
  dsimp only
  rw [if_neg hb, ht]
  dsimp only
  rw [if_pos hc]

theorem handle_key_up_eq (gs : GameState) (d : Dir)
    (hb : ¬(gs.player.x + dxOf d < 0 ∨ (GRID_COLS : Int) ≤ gs.player.x + dxOf d ∨
      gs.player.y + dyOf d < 0 ∨ (GRID_ROWS : Int) ≤ gs.player.y + dyOf d))
    (ht : ((gs.floors gs.current_floor_index).tiles (gs.player.y + dyOf d)
      (gs.player.x + dxOf d)).type = TileType.stairsUp)
    (hc : 0 < gs.current_floor_index) :
    handle_input_key gs d = update_fov { gs with
      current_floor_index := gs.current_floor_index - 1,
      player := (gs.floors (gs.current_floor_index - 1)).stairs_down } := by
  rw [handle_input_key]
  dsimp only
  rw [if_neg hb, ht]
  dsimp only
  rw [if_pos hc]

/-- C9: carve_h_corridor sets to Ground exactly the cells of the inclusive
column range between its endpoints on the given row, and carve_v_corridor
the inclusive row range on the given column; both routines yield the same
grid when their endpoints are swapped, and carving the same segment twice
yields the same grid as carving it once. -/
theorem C9_corridor_carving :
    (∀ (t : Tiles) (x1 x2 y0 b a : Int),
      carve_h_corridor t x1 x2 y0 b a =
        if b = y0 ∧ min x1 x2 ≤ a ∧ a ≤ max x1 x2 then
          { t b a with type := TileType.ground }
        else t b a) ∧
    (∀ (t : Tiles) (y1 y2 x0 b a : Int),
      carve_v_corridor t y1 y2 x0 b a =
        if a = x0 ∧ min y1 y2 ≤ b ∧ b ≤ max y1 y2 then
          { t b a with type := TileType.ground }
        else t b a) ∧
    (∀ (t : Tiles) (x1 x2 y0 : Int),
      carve_h_corridor t x1 x2 y0 = carve_h_corridor t x2 x1 y0) ∧
    (∀ (t : Tiles) (y1 y2 x0 : Int),
      carve_v_corridor t y1 y2 x0 = carve_v_corridor t y2 y1 x0) ∧
    (∀ (t : Tiles) (x1 x2 y0 : Int),
      carve_h_corridor (carve_h_corridor t x1 x2 y0) x1 x2 y0 = carve_h_corridor t x1 x2 y0) ∧
    (∀ (t : Tiles) (y1 y2 x0 : Int),
      carve_v_corridor (carve_v_corridor t y1 y2 x0) y1 y2 x0 = carve_v_corridor t y1 y2 x0) :=
  ⟨carve_h_apply, carve_v_apply, carve_h_swap, carve_v_swap, carve_h_idem, carve_v_idem⟩

/-- C10: generate_floor always accepts its first candidate room, because the
intersection test over an empty accepted-room list is vacuous; hence the
accepted-room list is never empty on any rand stream, and the stair
placement reads of the first and last accepted rooms are well-defined. -/
theorem C10_first_room_accepted :
    (∀ (r : Nat → Nat) (t : Tiles) (k : Nat),
      (attempt r ⟨t, [], k⟩).rooms = [candidate r k]) ∧
    (∀ (r : Nat → Nat) (k : Nat), 1 ≤ (gen_rooms r k).length) ∧
    (∀ (r : Nat → Nat) (k : Nat), gen_rooms r k ≠ []) :=
  ⟨attempt_empty_rooms, gen_rooms_len, gen_rooms_ne_nil⟩

/-- C3 counterexample: on this concrete rand stream the generator accepts
two rooms whose rectangles share the edge x = 7 (the first spans columns
1..6, the second starts at column 7), so a candidate touching an accepted
room's edge is not rejected, and two accepted rooms may intersect in the
claim's edge-inclusive sense. -/
theorem C3_counterexample :
    gen_rooms (fun n => if n = 6 then 6 else 0) 0 =
      [⟨1, 1, 6, 6⟩, ⟨7, 1, 6, 6⟩] ∧
    TouchesOrOverlaps ⟨1, 1, 6, 6⟩ ⟨7, 1, 6, 6⟩ ∧
    (⟨1, 1, 6, 6⟩ : Rect).x + (⟨1, 1, 6, 6⟩ : Rect).w = (⟨7, 1, 6, 6⟩ : Rect).x := by
  refine ⟨by decide, by decide, by decide⟩

/-- C3 (amended): a candidate room is rejected exactly when its rectangle
strictly overlaps (positive-area intersection, SDL_HasIntersection) some
previously accepted room's rectangle — edge-touching does not reject — and
consequently no two accepted rooms of any generated floor strictly overlap,
although they may share an edge. -/
theorem C3_overlap_rejection :
    (∀ (r : Nat → Nat) (st : GenState),
      ((attempt r st).rooms = st.rooms ↔
        ∃ q ∈ st.rooms, SDL_HasIntersection (candidate r st.k) q = true)) ∧
    (∀ (r : Nat → Nat) (k : Nat),
      (gen_rooms r k).Pairwise (fun a b =>
        SDL_HasIntersection a b = false ∧ SDL_HasIntersection b a = false)) := by
  constructor
  · intro r st
    constructor
    · intro he
      rcases attempt_rooms r st with ⟨-, hf⟩ | ⟨he2, -⟩
      · exact List.any_eq_true.mp hf
      · exfalso
        rw [he2] at he
        have : st.rooms.length = (st.rooms ++ [candidate r st.k]).length := by rw [he]
        simp at this
    · intro hex
      have hf : st.rooms.any (fun q => SDL_HasIntersection (candidate r st.k) q) = true :=
        List.any_eq_true.mpr hex
      rw [attempt_rejected r st hf]
  · intro r k
    apply List.Pairwise.imp ?_ (gen_rooms_pairwise r k)
    intro a b hab
    exact ⟨(hasIntersection_symm a b).trans hab, hab⟩

/-- C4: the explored flag is monotone — across any sequence of visibility
recomputations with arbitrary floor indices and player positions, and across
any handled key, a cell whose explored flag is true keeps it true; no
operation clears explored after initialization. -/
theorem C4_explored_monotone :
    (∀ (cfgs : List (Nat × Int × Int)) (gs : GameState) (j : Nat) (y x : Int),
      ((gs.floors j).tiles y x).is_explored = true →
      (((cfgs.foldl applyRecompute gs).floors j).tiles y x).is_explored = true) ∧
    (∀ (gs : GameState) (d : Dir) (j : Nat) (y x : Int),
      ((gs.floors j).tiles y x).is_explored = true →
      (((handle_input_key gs d).floors j).tiles y x).is_explored = true) := by
  constructor
  · intro cfgs
    induction cfgs with
    | nil => intro gs j y x h; exact h
    | cons c cs ih =>
      intro gs j y x h
      rw [List.foldl_cons]
      apply ih
      apply update_fov_exp_mono
      exact h
  · exact handle_key_exp_mono

/-- C4 witness: a concrete state with one explored cell keeps it explored
through a concrete recomputation sequence and a concrete key. -/
theorem C4_explored_monotone_witness :
    (((constState TileType.ground true 1).floors 0).tiles 0 0).is_explored = true ∧
    ((([((0 : Nat), (2 : Int), (2 : Int))].foldl applyRecompute
        (constState TileType.ground true 1)).floors 0).tiles 0 0).is_explored = true ∧
    (((handle_input_key (constState TileType.ground true 1) Dir.right).floors 0).tiles
        0 0).is_explored = true :=
  ⟨rfl,
   C4_explored_monotone.1 [((0 : Nat), (2 : Int), (2 : Int))]
     (constState TileType.ground true 1) 0 0 0 rfl,
   C4_explored_monotone.2 (constState TileType.ground true 1) Dir.right 0 0 0 rfl⟩

/-- C5: in every state reachable from dungeon creation by any sequence of
handled keys (moves and level transitions, each recomputing visibility),
every visible tile of every floor is explored. -/
theorem C5_visible_implies_explored (gs : GameState) (h : Reachable gs) :
    VisibleImpliesExplored gs := by
  induction h with
  | init r => exact init_vie r
  | step gs2 d _ ih => exact handle_key_vie gs2 d ih

/-- C5 witness: the invariant holds of the concrete initial state on the
all-zero rand stream. -/
theorem C5_visible_implies_explored_witness :
    VisibleImpliesExplored (init_state (fun _ => 0)) :=
  C5_visible_implies_explored (init_state (fun _ => 0)) (Reachable.init (fun _ => 0))

/-- C1 counterexample: on this concrete rand stream two rooms are accepted;
the first room's center cell (x, y) = (4, 4) is turned into a StairsUp tile
by stair placement, so it is not Ground, and no Ground-only path (and hence
no Ground-only flood fill) from the second room's interior cell
(x, y) = (7, 1) can reach it. -/
theorem C1_counterexample :
    gen_rooms (fun n => if n = 6 then 6 else 0) 0 = [⟨1, 1, 6, 6⟩, ⟨7, 1, 6, 6⟩] ∧
    inRect ⟨1, 1, 6, 6⟩ 4 4 ∧
    inRect ⟨7, 1, 6, 6⟩ 1 7 ∧
    ¬ Reaches (GroundOk (generate_floor (fun n => if n = 6 then 6 else 0) 0).1.tiles)
      (1, 7) (4, 4) := by
  refine ⟨by decide, by decide, by decide, ?_⟩
  intro h
  exact absurd h.2.1 (by decide)

/-- C1 (amended): on every floor generate_floor produces, every accepted
room's interior cell reaches every other accepted room's interior cell
through a path of non-Wall cells (Ground or a stair tile — stair placement
turns the first and last accepted rooms' centers into stair kinds), and in
particular a non-Wall flood fill from one room's interior reaches every
accepted room's center. -/
theorem C1_room_connectivity (r : Nat → Nat) (k : Nat) (a b : Rect)
    (ha : a ∈ gen_rooms r k) (hb : b ∈ gen_rooms r k)
    (ya xa yb xb : Int) (hia : inRect a ya xa) (hib : inRect b yb xb) :
    Reaches (NWOk (generate_floor r k).1.tiles) (ya, xa) (yb, xb) ∧
    Reaches (NWOk (generate_floor r k).1.tiles) (ya, xa)
      ((roomCenter b).y, (roomCenter b).x) := by
  have hg := genFloor_good r k
  have hra : Reaches (NWOk (generate_floor r k).1.tiles) (ya, xa)
      ((roomCenter a).y, (roomCenter a).x) :=
    rectReaches (NWOk (generate_floor r k).1.tiles) a
      (fun y x hc => hg.2.1 a ha y x hc) hia
      (center_inRect a (hg.1 a ha).1 (hg.1 a ha).2)
  have hcc : Reaches (NWOk (generate_floor r k).1.tiles)
      ((roomCenter a).y, (roomCenter a).x) ((roomCenter b).y, (roomCenter b).x) := by
    by_cases hab : a = b
    · rw [hab]
      have hok : NWOk (generate_floor r k).1.tiles ((roomCenter b).y, (roomCenter b).x) :=
        hg.2.1 b hb _ _ (center_inRect b (hg.1 b hb).1 (hg.1 b hb).2)
      exact ⟨hok, hok, Relation.ReflTransGen.refl⟩
    · exact List.Pairwise.forall (fun u v huv => reaches_symm huv) hg.2.2 ha hb hab
  have hcb : Reaches (NWOk (generate_floor r k).1.tiles)
      ((roomCenter b).y, (roomCenter b).x) (yb, xb) :=
    rectReaches (NWOk (generate_floor r k).1.tiles) b
      (fun y x hc => hg.2.1 b hb y x hc)
      (center_inRect b (hg.1 b hb).1 (hg.1 b hb).2) hib
  exact ⟨reaches_trans (reaches_trans hra hcc) hcb, reaches_trans hra hcc⟩

/-- C1 witness: concrete connectivity inside the single room the all-zero
stream generates. -/
theorem C1_room_connectivity_witness :
    (⟨1, 1, 6, 6⟩ : Rect) ∈ gen_rooms (fun _ => 0) 0 ∧
    inRect ⟨1, 1, 6, 6⟩ 1 1 ∧ inRect ⟨1, 1, 6, 6⟩ 2 2 ∧
    (Reaches (NWOk (generate_floor (fun _ => 0) 0).1.tiles) (1, 1) (2, 2) ∧
     Reaches (NWOk (generate_floor (fun _ => 0) 0).1.tiles) (1, 1)
       ((roomCenter ⟨1, 1, 6, 6⟩).y, (roomCenter ⟨1, 1, 6, 6⟩).x)) :=
  ⟨by decide, by decide, by decide,
   C1_room_connectivity (fun _ => 0) 0 ⟨1, 1, 6, 6⟩ ⟨1, 1, 6, 6⟩ (by decide) (by decide)
     1 1 2 2 (by decide) (by decide)⟩

theorem fixupUp_up (fl : Floor) :
    stairsUpTile { fl with
      tiles := setType fl.tiles fl.stairs_up.y fl.stairs_up.x TileType.ground } =
      TileType.ground := by
  unfold stairsUpTile
  dsimp only
  rw [setType_type, if_pos ⟨rfl, rfl⟩]

theorem fixupUp_down (fl : Floor) :
    stairsDownTile { fl with
      tiles := setType fl.tiles fl.stairs_up.y fl.stairs_up.x TileType.ground } =
      TileType.ground ∨
    stairsDownTile { fl with
      tiles := setType fl.tiles fl.stairs_up.y fl.stairs_up.x TileType.ground } =
      stairsDownTile fl := by
  unfold stairsDownTile
  dsimp only
  rw [setType_type]
  split_ifs with h
  · exact Or.inl rfl
  · exact Or.inr rfl

theorem fixupDown_down (fl : Floor) :
    stairsDownTile { fl with
      tiles := setType fl.tiles fl.stairs_down.y fl.stairs_down.x TileType.ground } =
      TileType.ground := by
  unfold stairsDownTile
  dsimp only
  rw [setType_type, if_pos ⟨rfl, rfl⟩]

theorem fixupDown_up (fl : Floor) :
    stairsUpTile { fl with
      tiles := setType fl.tiles fl.stairs_down.y fl.stairs_down.x TileType.ground } =
      TileType.ground ∨
    stairsUpTile { fl with
      tiles := setType fl.tiles fl.stairs_down.y fl.stairs_down.x TileType.ground } =
      stairsUpTile fl := by
  unfold stairsUpTile
  dsimp only
  rw [setType_type]
  split_ifs with h
  · exact Or.inl rfl
  · exact Or.inr rfl

theorem genFloor_su_cases (r : Nat → Nat) (k : Nat) :
    stairsUpTile (generate_floor r k).1 = TileType.stairsUp ∨
    ((generate_floor r k).1.stairs_up = (generate_floor r k).1.stairs_down ∧
      stairsUpTile (generate_floor r k).1 = TileType.stairsDown) := by
  have h := genFloor_su_type r k
  unfold stairsUpTile
  by_cases hc : (generate_floor r k).1.stairs_up = (generate_floor r k).1.stairs_down
  · right
    rw [if_pos hc] at h
    exact ⟨hc, h⟩
  · left
    rw [if_neg hc] at h
    exact h

theorem init_stairs_up_tile (r : Nat → Nat) (ℓ : Nat) :
    stairsUpTile ((init_state r).floors ℓ) = stairsUpTile (fixedFloors r ℓ) := by
  unfold stairsUpTile
  rw [init_state]
  rw [(update_fov_stairs (pre_fov_state r) ℓ).1, update_fov_type_eq]
  rfl

theorem init_stairs_down_tile (r : Nat → Nat) (ℓ : Nat) :
    stairsDownTile ((init_state r).floors ℓ) = stairsDownTile (fixedFloors r ℓ) := by
  unfold stairsDownTile
  rw [init_state]
  rw [(update_fov_stairs (pre_fov_state r) ℓ).2, update_fov_type_eq]
  rfl

theorem ne_wall_of_cases {t : TileType}
    (h : t = TileType.ground ∨ t = TileType.stairsUp ∨ t = TileType.stairsDown) :
    t ≠ TileType.wall := by
  rcases h with h | h | h <;> rw [h] <;> intro hx <;> exact TileType.noConfusion hx

/-- C2 (amended): after generate_floor the stairs_down tile is StairsDown,
and the stairs_up tile is StairsUp unless the two stair coordinates
coincide (a single accepted room), in which case it is StairsDown.  In the
assembled dungeon, every level's stairs_down tile is StairsDown or Ground,
every level's stairs_up tile is StairsUp, Ground or StairsDown, no stairs
tile is ever Wall, level 0's stairs_up tile is Ground, and the last level's
stairs_down tile is Ground. -/
theorem C2_stairs_invariant :
    (∀ (r : Nat → Nat) (k : Nat),
      stairsDownTile (generate_floor r k).1 = TileType.stairsDown ∧
      (stairsUpTile (generate_floor r k).1 = TileType.stairsUp ∨
        ((generate_floor r k).1.stairs_up = (generate_floor r k).1.stairs_down ∧
         stairsUpTile (generate_floor r k).1 = TileType.stairsDown))) ∧
    (∀ (r : Nat → Nat) (ℓ : Nat), ℓ < DUNGEON_FLOOR_COUNT →
      (stairsDownTile ((init_state r).floors ℓ) = TileType.stairsDown ∨
       stairsDownTile ((init_state r).floors ℓ) = TileType.ground) ∧
      (stairsUpTile ((init_state r).floors ℓ) = TileType.stairsUp ∨
       stairsUpTile ((init_state r).floors ℓ) = TileType.ground ∨
       stairsUpTile ((init_state r).floors ℓ) = TileType.stairsDown) ∧
      stairsUpTile ((init_state r).floors ℓ) ≠ TileType.wall ∧
      stairsDownTile ((init_state r).floors ℓ) ≠ TileType.wall ∧
      (ℓ = 0 → stairsUpTile ((init_state r).floors ℓ) = TileType.ground) ∧
      (ℓ = DUNGEON_FLOOR_COUNT - 1 →
        stairsDownTile ((init_state r).floors ℓ) = TileType.ground)) := by
  constructor
  · intro r k
    exact ⟨genFloor_sd_type r k, genFloor_su_cases r k⟩
  · intro r ℓ hℓ
    rw [init_stairs_up_tile, init_stairs_down_tile]
    have h5 : ℓ < 5 := hℓ
    interval_cases ℓ
    · rw [fixedFloors_0]
      obtain ⟨k0, hk0⟩ := raw_is_gen r 0
      rw [hk0]
      have hdown := fixupUp_down (generate_floor r k0).1
      have hd2 : stairsDownTile { (generate_floor r k0).1 with
          tiles := setType (generate_floor r k0).1.tiles (generate_floor r k0).1.stairs_up.y
            (generate_floor r k0).1.stairs_up.x TileType.ground } = TileType.stairsDown ∨
          stairsDownTile { (generate_floor r k0).1 with
          tiles := setType (generate_floor r k0).1.tiles (generate_floor r k0).1.stairs_up.y
            (generate_floor r k0).1.stairs_up.x TileType.ground } = TileType.ground := by
        rcases hdown with h | h
        · exact Or.inr h
        · rw [h]
          exact Or.inl (genFloor_sd_type r k0)
      refine ⟨hd2, Or.inr (Or.inl (fixupUp_up _)), ?_, ?_, ?_, ?_⟩
      · exact ne_wall_of_cases (Or.inl (fixupUp_up _))
      · exact ne_wall_of_cases (by rcases hd2 with h | h
                                   · exact Or.inr (Or.inr h)
                                   · exact Or.inl h)
      · intro _
        exact fixupUp_up _
      · intro hx
        exact absurd hx (by decide)
    · rw [fixedFloors_mid r 1 (by decide) (by decide)]
      obtain ⟨k1, hk1⟩ := raw_is_gen r 1
      rw [hk1]
      have hup := genFloor_su_cases r k1
      have hu3 : stairsUpTile (generate_floor r k1).1 = TileType.stairsUp ∨
          stairsUpTile (generate_floor r k1).1 = TileType.ground ∨
          stairsUpTile (generate_floor r k1).1 = TileType.stairsDown := by
        rcases hup with h | h
        · exact Or.inl h
        · exact Or.inr (Or.inr h.2)
      refine ⟨Or.inl (genFloor_sd_type r k1), hu3, ?_, ?_, ?_, ?_⟩
      · exact ne_wall_of_cases (by rcases hu3 with h | h | h
                                   · exact Or.inr (Or.inl h)
                                   · exact Or.inl h
                                   · exact Or.inr (Or.inr h))
      · exact ne_wall_of_cases (Or.inr (Or.inr (genFloor_sd_type r k1)))
      · intro hx
        exact absurd hx (by decide)
      · intro hx
        exact absurd hx (by decide)
    · rw [fixedFloors_mid r 2 (by decide) (by decide)]
      obtain ⟨k1, hk1⟩ := raw_is_gen r 2
      rw [hk1]
      have hup := genFloor_su_cases r k1
      have hu3 : stairsUpTile (generate_floor r k1).1 = TileType.stairsUp ∨
          stairsUpTile (generate_floor r k1).1 = TileType.ground ∨
          stairsUpTile (generate_floor r k1).1 = TileType.stairsDown := by
        rcases hup with h | h
        · exact Or.inl h
        · exact Or.inr (Or.inr h.2)
      refine ⟨Or.inl (genFloor_sd_type r k1), hu3, ?_, ?_, ?_, ?_⟩
      · exact ne_wall_of_cases (by rcases hu3 with h | h | h
                                   · exact Or.inr (Or.inl h)
                                   · exact Or.inl h
                                   · exact Or.inr (Or.inr h))
      · exact ne_wall_of_cases (Or.inr (Or.inr (genFloor_sd_type r k1)))
      · intro hx
        exact absurd hx (by decide)
      · intro hx
        exact absurd hx (by decide)
    · rw [fixedFloors_mid r 3 (by decide) (by decide)]
      obtain ⟨k1, hk1⟩ := raw_is_gen r 3
      rw [hk1]
      have hup := genFloor_su_cases r k1
      have hu3 : stairsUpTile (generate_floor r k1).1 = TileType.stairsUp ∨
          stairsUpTile (generate_floor r k1).1 = TileType.ground ∨
          stairsUpTile (generate_floor r k1).1 = TileType.stairsDown := by
        rcases hup with h | h
        · exact Or.inl h
        · exact Or.inr (Or.inr h.2)
      refine ⟨Or.inl (genFloor_sd_type r k1), hu3, ?_, ?_, ?_, ?_⟩
      · exact ne_wall_of_cases (by rcases hu3 with h | h | h
                                   · exact Or.inr (Or.inl h)
                                   · exact Or.inl h
                                   · exact Or.inr (Or.inr h))
      · exact ne_wall_of_cases (Or.inr (Or.inr (genFloor_sd_type r k1)))
      · intro hx
        exact absurd hx (by decide)
      · intro hx
        exact absurd hx (by decide)
    · rw [fixedFloors_last]
      obtain ⟨k4, hk4⟩ := raw_is_gen r 4
      rw [hk4]
      have hup := fixupDown_up (generate_floor r k4).1
      have hu3 : stairsUpTile { (generate_floor r k4).1 with
          tiles := setType (generate_floor r k4).1.tiles (generate_floor r k4).1.stairs_down.y
            (generate_floor r k4).1.stairs_down.x TileType.ground } = TileType.stairsUp ∨
          stairsUpTile { (generate_floor r k4).1 with
          tiles := setType (generate_floor r k4).1.tiles (generate_floor r k4).1.stairs_down.y
            (generate_floor r k4).1.stairs_down.x TileType.ground } = TileType.ground ∨
          stairsUpTile { (generate_floor r k4).1 with
          tiles := setType (generate_floor r k4).1.tiles (generate_floor r k4).1.stairs_down.y
            (generate_floor r k4).1.stairs_down.x TileType.ground } = TileType.stairsDown := by
        rcases hup with h | h
        · exact Or.inr (Or.inl h)
        · rw [h]
          rcases genFloor_su_cases r k4 with h2 | h2
          · exact Or.inl h2
          · exact Or.inr (Or.inr h2.2)
      refine ⟨Or.inr (fixupDown_down _), hu3, ?_, ?_, ?_, ?_⟩
      · exact ne_wall_of_cases (by rcases hu3 with h | h | h
                                   · exact Or.inr (Or.inl h)
                                   · exact Or.inl h
                                   · exact Or.inr (Or.inr h))
      · exact ne_wall_of_cases (Or.inl (fixupDown_down _))
      · intro hx
        exact absurd hx (by decide)
      · intro _
        exact fixupDown_down _

/-- C2 witness: the invariant instantiated on the all-zero rand stream at
generation index 0 and dungeon level 0. -/
theorem C2_stairs_invariant_witness :
    (stairsDownTile (generate_floor (fun _ => 0) 0).1 = TileType.stairsDown ∧
      (stairsUpTile (generate_floor (fun _ => 0) 0).1 = TileType.stairsUp ∨
        ((generate_floor (fun _ => 0) 0).1.stairs_up =
            (generate_floor (fun _ => 0) 0).1.stairs_down ∧
         stairsUpTile (generate_floor (fun _ => 0) 0).1 = TileType.stairsDown))) ∧
    ((stairsDownTile ((init_state (fun _ => 0)).floors 0) = TileType.stairsDown ∨
      stairsDownTile ((init_state (fun _ => 0)).floors 0) = TileType.ground) ∧
     (stairsUpTile ((init_state (fun _ => 0)).floors 0) = TileType.stairsUp ∨
      stairsUpTile ((init_state (fun _ => 0)).floors 0) = TileType.ground ∨
      stairsUpTile ((init_state (fun _ => 0)).floors 0) = TileType.stairsDown) ∧
     stairsUpTile ((init_state (fun _ => 0)).floors 0) ≠ TileType.wall ∧
     stairsDownTile ((init_state (fun _ => 0)).floors 0) ≠ TileType.wall ∧
     ((0 : Nat) = 0 → stairsUpTile ((init_state (fun _ => 0)).floors 0) = TileType.ground) ∧
     ((0 : Nat) = DUNGEON_FLOOR_COUNT - 1 →
       stairsDownTile ((init_state (fun _ => 0)).floors 0) = TileType.ground)) :=
  ⟨C2_stairs_invariant.1 (fun _ => 0) 0,
   C2_stairs_invariant.2 (fun _ => 0) 0 (by decide)⟩

/-- C2 counterexample: on the all-zero rand stream only one room is
accepted, stairs_up and stairs_down coincide, and the tile at stairs_up is
StairsDown — neither StairsUp nor Ground, contradicting the claimed
invariant for generate_floor output. -/
theorem C2_counterexample :
    ¬(stairsUpTile (generate_floor (fun _ => 0) 0).1 = TileType.stairsUp ∨
      stairsUpTile (generate_floor (fun _ => 0) 0).1 = TileType.ground) := by
  decide

/-- C7: a stair transition whose preconditions fail — stepping onto a
StairsUp tile while on level 0, or onto a StairsDown tile while on the last
level — is rejected with no state change at all: the player coordinates,
the current floor index, and every tile of every floor are untouched. -/
theorem C7_rejected_no_change (gs : GameState) (d : Dir)
    (hb : ¬(gs.player.x + dxOf d < 0 ∨ (GRID_COLS : Int) ≤ gs.player.x + dxOf d ∨
      gs.player.y + dyOf d < 0 ∨ (GRID_ROWS : Int) ≤ gs.player.y + dyOf d)) :
    (((gs.floors gs.current_floor_index).tiles (gs.player.y + dyOf d)
        (gs.player.x + dxOf d)).type = TileType.stairsUp →
      gs.current_floor_index = 0 → handle_input_key gs d = gs) ∧
    (((gs.floors gs.current_floor_index).tiles (gs.player.y + dyOf d)
        (gs.player.x + dxOf d)).type = TileType.stairsDown →
      gs.floor_count - 1 ≤ gs.current_floor_index → handle_input_key gs d = gs) := by
  constructor
  · intro ht hc
    rw [handle_input_key]
    dsimp only
    rw [if_neg hb, ht]
    dsimp only
    rw [if_neg (by omega : ¬0 < gs.current_floor_index)]
  · intro ht hc
    rw [handle_input_key]
    dsimp only
    rw [if_neg hb, ht]
    dsimp only
    rw [if_neg (by omega : ¬gs.current_floor_index < gs.floor_count - 1)]

/-- C7 witness: concrete rejected transitions — stepping onto StairsUp on
level 0 of a one-floor state, and onto StairsDown on the last level. -/
theorem C7_rejected_no_change_witness :
    handle_input_key (constState TileType.stairsUp false 1) Dir.right =
      constState TileType.stairsUp false 1 ∧
    handle_input_key (constState TileType.stairsDown false 1) Dir.right =
      constState TileType.stairsDown false 1 :=
  ⟨(C7_rejected_no_change (constState TileType.stairsUp false 1) Dir.right
      (by decide)).1 (by decide) (by decide),
   (C7_rejected_no_change (constState TileType.stairsDown false 1) Dir.right
      (by decide)).2 (by decide) (by decide)⟩

/-- C6: stepping onto level i's stairs_down tile moves the observer to
level i+1 at that level's stairs_up, and a subsequent step onto a StairsUp
tile of level i+1 returns the observer to level i at the original
stairs_down coordinate. -/
theorem C6_transition_round_trip (gs : GameState) (d d2 : Dir)
    (hcount : gs.current_floor_index + 1 < gs.floor_count)
    (hb1 : ¬(gs.player.x + dxOf d < 0 ∨ (GRID_COLS : Int) ≤ gs.player.x + dxOf d ∨
      gs.player.y + dyOf d < 0 ∨ (GRID_ROWS : Int) ≤ gs.player.y + dyOf d))
    (_hpt : gs.player.x + dxOf d = (gs.floors gs.current_floor_index).stairs_down.x ∧
      gs.player.y + dyOf d = (gs.floors gs.current_floor_index).stairs_down.y)
    (ht1 : ((gs.floors gs.current_floor_index).tiles (gs.player.y + dyOf d)
      (gs.player.x + dxOf d)).type = TileType.stairsDown)
    (hb2 : ¬((gs.floors (gs.current_floor_index + 1)).stairs_up.x + dxOf d2 < 0 ∨
      (GRID_COLS : Int) ≤ (gs.floors (gs.current_floor_index + 1)).stairs_up.x + dxOf d2 ∨
      (gs.floors (gs.current_floor_index + 1)).stairs_up.y + dyOf d2 < 0 ∨
      (GRID_ROWS : Int) ≤ (gs.floors (gs.current_floor_index + 1)).stairs_up.y + dyOf d2))
    (ht2 : ((gs.floors (gs.current_floor_index + 1)).tiles
      ((gs.floors (gs.current_floor_index + 1)).stairs_up.y + dyOf d2)
      ((gs.floors (gs.current_floor_index + 1)).stairs_up.x + dxOf d2)).type =
      TileType.stairsUp) :
    (handle_input_key gs d).current_floor_index = gs.current_floor_index + 1 ∧
    (handle_input_key gs d).player = (gs.floors (gs.current_floor_index + 1)).stairs_up ∧
    (handle_input_key (handle_input_key gs d) d2).current_floor_index =
      gs.current_floor_index ∧
    (handle_input_key (handle_input_key gs d) d2).player =
      (gs.floors gs.current_floor_index).stairs_down := by
  have h1 := handle_key_down_eq gs d hb1 ht1 (by omega)
  have hidx1 : (handle_input_key gs d).current_floor_index = gs.current_floor_index + 1 := by
    rw [h1]
    rfl
  have hply : (handle_input_key gs d).player =
      (gs.floors (gs.current_floor_index + 1)).stairs_up := by
    rw [h1]
    rfl
  have hb2a : ¬((handle_input_key gs d).player.x + dxOf d2 < 0 ∨
      (GRID_COLS : Int) ≤ (handle_input_key gs d).player.x + dxOf d2 ∨
      (handle_input_key gs d).player.y + dyOf d2 < 0 ∨
      (GRID_ROWS : Int) ≤ (handle_input_key gs d).player.y + dyOf d2) := by
    rw [hply]
    exact hb2
  have ht2a : (((handle_input_key gs d).floors
      (handle_input_key gs d).current_floor_index).tiles
      ((handle_input_key gs d).player.y + dyOf d2)
      ((handle_input_key gs d).player.x + dxOf d2)).type = TileType.stairsUp := by
    rw [hidx1, hply, h1, update_fov_type_eq]
    exact ht2
  have h2 := handle_key_up_eq (handle_input_key gs d) d2 hb2a ht2a (by omega)
  refine ⟨hidx1, hply, ?_, ?_⟩
  · rw [h2]
    show (handle_input_key gs d).current_floor_index - 1 = gs.current_floor_index
    rw [hidx1]
    omega
  · rw [h2]
    show ((handle_input_key gs d).floors
      ((handle_input_key gs d).current_floor_index - 1)).stairs_down =
      (gs.floors gs.current_floor_index).stairs_down
    rw [hidx1, Nat.add_sub_cancel, h1, (update_fov_stairs _ gs.current_floor_index).2]

/-- C6 witness: the round trip on a concrete two-floor state whose level 0
has a stairs-down tile beside the player and whose level 1 has a stairs-up
tile beside its stairs_up coordinate. -/
theorem C6_transition_round_trip_witness :
    (handle_input_key rtState Dir.right).current_floor_index =
      rtState.current_floor_index + 1 ∧
    (handle_input_key rtState Dir.right).player =
      (rtState.floors (rtState.current_floor_index + 1)).stairs_up ∧
    (handle_input_key (handle_input_key rtState Dir.right) Dir.right).current_floor_index =
      rtState.current_floor_index ∧
    (handle_input_key (handle_input_key rtState Dir.right) Dir.right).player =
      (rtState.floors rtState.current_floor_index).stairs_down :=
  C6_transition_round_trip rtState Dir.right Dir.right (by decide) (by decide)
    (by decide) (by decide) (by decide) (by decide)

/-- C8: the shadow-casting recursion is total and bounded — a call whose
slope interval is already empty returns the grid unchanged, a call whose
starting row is at least GRID_ROWS + GRID_COLS returns the grid unchanged,
and the depth loop's result does not depend on its fuel once the fuel
reaches GRID_ROWS + GRID_COLS - row, so the recursion (each recursive call
moving to row i + 1) never needs more depth than the grid span.  Slopes are
modelled as rationals; the bound does not depend on slope values. -/
theorem C8_cast_light_termination :
    (∀ (t : Tiles) (px py : Int) (oct row : Nat) (s e : ℚ), s < e →
      cast_light t px py oct row s e = t) ∧
    (∀ (t : Tiles) (px py : Int) (oct row : Nat) (s e : ℚ),
      GRID_ROWS + GRID_COLS ≤ row → cast_light t px py oct row s e = t) ∧
    (∀ (px py : Int) (oct : Nat) (f i : Nat) (t : Tiles) (s e : ℚ),
      GRID_ROWS + GRID_COLS - i ≤ f →
      clOuter px py oct f i t s e =
        clOuter px py oct (GRID_ROWS + GRID_COLS - i) i t s e) :=
  ⟨cast_light_early_return, cast_light_row_bound,
   fun px py oct => clOuter_fuel_irrel px py oct⟩

/-- C8 witness: the three termination facts at concrete arguments. -/
theorem C8_cast_light_termination_witness :
    cast_light initialTiles 0 0 0 5 0 1 = initialTiles ∧
    cast_light initialTiles 0 0 0 (GRID_ROWS + GRID_COLS) 1 0 = initialTiles ∧
    clOuter 0 0 0 200 130 initialTiles 1 0 =
      clOuter 0 0 0 (GRID_ROWS + GRID_COLS - 130) 130 initialTiles 1 0 :=
  ⟨C8_cast_light_termination.1 initialTiles 0 0 0 5 0 1 (by norm_num),
   C8_cast_light_termination.2.1 initialTiles 0 0 0 (GRID_ROWS + GRID_COLS) 1 0
     (Nat.le_refl _),
   C8_cast_light_termination.2.2 0 0 0 200 130 initialTiles 1 0 (by decide)⟩
